import Mathlib

/-!
Verification development for the I4MM assessment tool simulation core
(`simulation/simulation.py` and `simulation/simulation_runner.py`).

The Python code is a SimPy discrete-event simulation.  We give a shallow
embedding as an executable event-loop interpreter specialized to the three
processes of this program (per-machine failure monitors, the job generator,
and job processes), defunctionalized into explicit continuations.

Modelling conventions:

* Time.  Python uses floats (minutes).  We embed durations and instants as
  exact fixed-point integers in units of `10 ^ (-8)` minutes, so every
  numeric constant of the source is exactly representable:
    `0.0001 min = 10000`, `0.01 min = 1000000`, `0.1 min = 10000000`,
    `1e-6 min = 100`, `8*60 min = 48000000000`.
  Ratio-valued KPI fields of the result record (throughput per hour,
  utilization, mean lead time in minutes) are rationals computed from the
  integer accumulators; `toMin t = t / 10^8` converts a fixed-point time to
  minutes.

* Randomness.  The code draws from Python's process-wide `random` module.
  We model that module as an abstract `RandomLib` (the distribution
  algorithms live in the Python standard library, outside this repository)
  acting on an explicit global state `g : Nat` that is threaded through the
  run, exactly as the hidden global state of `random` is.  `random.seed s`
  is `lib.seed s`.  `random.expovariate (1.0 / mean)` is `expoMean`, which
  raises ZeroDivisionError iff `mean = 0`, like the Python expression;
  `random.expovariate rate` is `expoRate` (rates are exact fractions
  `num/den` per minute, only passed through, never computed with);
  `random.normalvariate mu sigma` is `RandomLib.normal`.

* Scheduling.  SimPy orders events by (due time, priority, event id):
  priority 0 (URGENT) for process initialization, 1 (NORMAL) for timeouts,
  triggered requests, grants and process termination; event ids increase in
  creation order.  `env.run(until=T)` executes events with due time `< T`
  and then sets the clock to `T`, abandoning the rest; it raises
  ValueError when `until <= now`, and `env.timeout` raises ValueError on a
  negative delay.  Exceptions are modelled by `Except Err`.  A process
  termination event with no waiter (finished job processes) is a no-op pop
  and is omitted; it carries no observable effect.

* Ghost state.  `repair_log` on a machine records the (start, end) of every
  repair whose completion event actually executed; it is written exactly
  when `downtime` is, and lets us state what `downtime` accumulates.
-/

namespace Sim

/-- One fixed-point time unit is `10 ^ (-8)` minutes. -/
def timeScale : Int := 100000000

/-- Convert a fixed-point time to minutes, as a rational. -/
def toMin (t : Int) : ℚ := (t : ℚ) / (timeScale : ℚ)

/-- An exact rate in jobs per minute, as a fraction num/den (only ever passed
to the abstract sampler, never computed with). -/
structure Rate where
  num : Int
  den : Int
deriving DecidableEq, Repr, Inhabited

/-- The Python process-wide `random` module: abstract distribution samplers
acting on an explicit global state.  `seed` models `random.seed`;
`expoMean mean` models `random.expovariate (1.0 / mean)` for a nonzero mean;
`expoRate r` models `random.expovariate r` for a nonzero rate; `normal`
models `random.normalvariate`.  Draw results are fixed-point durations. -/
structure RandomLib where
  seed : Nat → Nat
  expoMean : Int → Nat → Int × Nat
  expoRate : Rate → Nat → Int × Nat
  normal : Int → Int → Nat → Int × Nat

/-- A per-stage processing-time sampler (`params['process_times'][i]` is a
zero-argument closure reading the global `random` state). -/
abbrev Sampler := Nat → Int × Nat

/-- The `params` dict handed to `run_simulation_once`. -/
structure Params where
  arrival_rate : Rate
  mttf : List Int
  mttr : List Int
  process_times : List Sampler

/-- Python exceptions that can escape the embedded code. -/
inductive Err where
  /-- IndexError: a list index out of range. -/
  | indexError
  /-- ZeroDivisionError: `1.0 / 0` or `expovariate 0`. -/
  | zeroDivision
  /-- ValueError raised by `env.timeout` on a negative delay. -/
  | negativeDelay
  /-- ValueError raised by `env.run(until=T)` when `T <= env.now`. -/
  | invalidUntil
  /-- Artifact of the embedding: the supplied step budget ran out while
  events remained before the horizon.  Never raised by the program. -/
  | outOfFuel
deriving DecidableEq, Repr

/-- Defunctionalized process continuations.  `monStart i` is the top of the
`machine_failure_monitor` loop (also its initialization); `monFire i` is the
resumption after `timeout(wait)` that spawns `fail_and_repair`;
`repairStart i` is the initialization of the `fail_and_repair` subprocess;
`repairEnd i downStart` its resumption after `timeout(repair_time)`;
`genLoop` is the top of the `job_generator` loop (also its initialization);
`genWake` its resumption after `timeout(inter)`; `jobStart` is the
initialization of a `job_process`; `jobGranted i arrival procTime` its
resumption once the stage-`i` resource request is granted;
`jobWake i arrival procTime remaining` its resumption after a timeout inside
the inner while loop; `releaseEvt i` is the SimPy `Release` event created
when the `with` block exits, whose processing grants the next waiter. -/
inductive Cont where
  | monStart (i : Nat)
  | monFire (i : Nat)
  | repairStart (i : Nat)
  | repairEnd (i : Nat) (downStart : Int)
  | genLoop
  | genWake
  | jobStart
  | jobGranted (i : Nat) (arrival procTime : Int)
  | jobWake (i : Nat) (arrival procTime remaining : Int)
  | releaseEvt (i : Nat)
deriving DecidableEq, Repr

/-- A scheduled event: due time, priority (0 urgent, 1 normal), creation
sequence number, and the continuation to resume. -/
structure Event where
  time : Int
  prio : Nat
  eid : Nat
  cont : Cont
deriving DecidableEq, Repr

/-- Strict ordering of events by (time, priority, eid), the SimPy heap key. -/
def Event.before (a b : Event) : Bool :=
  if a.time < b.time then true
  else if b.time < a.time then false
  else if a.prio < b.prio then true
  else if b.prio < a.prio then false
  else a.eid < b.eid

/-- Insert an event into the (sorted) pending-event list. -/
def insertEvent (e : Event) : List Event → List Event
  | [] => [e]
  | x :: xs => if e.before x then e :: x :: xs else x :: insertEvent e xs

/-- The `Machine` object: identity, means, accumulators, failure flag, next
failure instant, and its capacity-1 `simpy.Resource` (`holder` is whether a
request currently holds it, `waitq` the FIFO queue of pending requests,
stored as the continuation to grant).  `repair_log` is ghost state. -/
structure Machine where
  name : String
  mttf : Int
  mttr : Int
  busy_time : Int
  downtime : Int
  next_failure_time : Int
  failed : Bool
  holder : Bool
  waitq : List Cont
  repair_log : List (Int × Int)
deriving DecidableEq, Repr, Inhabited

/-- The `stats` dict. -/
structure Stats where
  generated : Nat
  completed_times : List Int
  completion_times : List Int
deriving DecidableEq, Repr, Inhabited

/-- The full simulation state: clock, pending events (kept sorted by the
SimPy key), event-id counter, machines, stats, the global `random` state,
and the parameters read during the run. -/
structure SimState where
  now : Int
  queue : List Event
  nextEid : Nat
  machines : List Machine
  stats : Stats
  g : Nat
  procTimes : List Sampler
  arrivalRate : Rate
  simTime : Int
deriving Inhabited

/-- Replace machine `i` (in-place mutation of the Python object). -/
def setMachine (st : SimState) (i : Nat) (m : Machine) : SimState :=
  { st with machines := st.machines.set i m }

/-- Schedule a continuation after `delay`; `env.timeout` (and event
triggering generally) raises ValueError on a negative delay. -/
def schedule (st : SimState) (delay : Int) (prio : Nat) (c : Cont) :
    Except Err SimState :=
  if delay < 0 then .error .negativeDelay
  else .ok { st with
    queue := insertEvent ⟨st.now + delay, prio, st.nextEid, c⟩ st.queue,
    nextEid := st.nextEid + 1 }

/-- `random.expovariate (1.0 / mean)`: the Python division raises
ZeroDivisionError when the mean is zero. -/
def expoMeanCall (lib : RandomLib) (mean : Int) (g : Nat) :
    Except Err (Int × Nat) :=
  if mean = 0 then .error .zeroDivision else .ok (lib.expoMean mean g)

/-- `random.expovariate rate`: raises ZeroDivisionError when the rate is
zero (the division by lambd inside the library). -/
def expoRateCall (lib : RandomLib) (r : Rate) (g : Nat) :
    Except Err (Int × Nat) :=
  if r.num = 0 then .error .zeroDivision else .ok (lib.expoRate r g)

/-- `Machine.schedule_next_failure` (simulation.py lines 19-21):
`ttf = random.expovariate(1.0 / self.mttf)`;
`self.next_failure_time = self.env.now + max(0.0001, ttf)`. -/
def schedule_next_failure (lib : RandomLib) (m : Machine) (now : Int)
    (g : Nat) : Except Err (Machine × Nat) :=
  match expoMeanCall lib m.mttf g with
  | .error e => .error e
  | .ok (ttf, g') =>
      .ok ({ m with next_failure_time := now + max 10000 ttf }, g')

/-- List indexing `l[i]`, raising IndexError when out of range. -/
def lIdx (l : List Int) (i : Nat) : Except Err Int :=
  match l.get? i with
  | some v => .ok v
  | none => .error .indexError

/-- Top of the `machine_failure_monitor` loop (lines 33-35):
`wait = max(0.0, machine.next_failure_time - env.now); yield env.timeout(wait)`. -/
def processMonStart (st : SimState) (i : Nat) : Except Err SimState :=
  match st.machines.get? i with
  | none => .error .indexError
  | some m => schedule st (max 0 (m.next_failure_time - st.now)) 1 (.monFire i)

/-- Line 37: `yield env.process(machine.fail_and_repair())` creates the
subprocess, whose initialization event is scheduled urgent at `now`. -/
def processMonFire (st : SimState) (i : Nat) : Except Err SimState :=
  schedule st 0 0 (.repairStart i)

/-- Body of `Machine.fail_and_repair` up to its yield (lines 23-27):
`self.failed = True; down_start = self.env.now;
repair_time = random.expovariate(1.0 / self.mttr);
yield self.env.timeout(repair_time)`.  Note the drawn repair time is used
as-is, with no floor. -/
def processRepairStart (lib : RandomLib) (st : SimState) (i : Nat) :
    Except Err SimState :=
  match st.machines.get? i with
  | none => .error .indexError
  | some m =>
    match expoMeanCall lib m.mttr st.g with
    | .error e => .error e
    | .ok (rt, g') =>
        schedule (setMachine { st with g := g' } i { m with failed := true })
          rt 1 (.repairEnd i st.now)

/-- Rest of `fail_and_repair` (lines 28-30): `self.failed = False;
self.downtime += self.env.now - down_start; self.schedule_next_failure()`;
the subprocess then terminates, resuming the waiting monitor through a
normal-priority event at `now`.  The ghost `repair_log` records the interval. -/
def processRepairEnd (lib : RandomLib) (st : SimState) (i : Nat)
    (downStart : Int) : Except Err SimState :=
  match st.machines.get? i with
  | none => .error .indexError
  | some m =>
    match schedule_next_failure lib
        { m with failed := false,
                 downtime := m.downtime + (st.now - downStart),
                 repair_log := m.repair_log ++ [(downStart, st.now)] }
        st.now st.g with
    | .error e => .error e
    | .ok (m', g') => schedule (setMachine { st with g := g' } i m') 0 1 (.monStart i)

/-- `resource.request()` for machine `i` by a job whose granted continuation
is `c`: the request joins the FIFO queue; triggering then grants the queue
head if the capacity-1 resource is free, through a scheduled event at `now`
(never an in-place resumption). -/
def requestMachine (st : SimState) (i : Nat) (c : Cont) :
    Except Err SimState :=
  match st.machines.get? i with
  | none => .error .indexError
  | some m =>
    if m.holder then .ok (setMachine st i { m with waitq := m.waitq ++ [c] })
    else
      match m.waitq ++ [c] with
      | [] => .ok (setMachine st i { m with waitq := m.waitq ++ [c] })
      | h :: t =>
          schedule (setMachine st i { m with holder := true, waitq := t }) 0 1 h

/-- Start of stage `i` of `job_process` (lines 41-44), entered on starting
the job (`i = 0`) and synchronously after finishing stage `i - 1`:
`proc_time = max(0.01, process_times[i]());
with machine.resource.request() as req: yield req`.  When the route is
exhausted instead, lines 60-61 record the outcome:
`stats['completed_times'].append(env.now - arrival);
stats['completion_times'].append(env.now)`. -/
def jobStage (st : SimState) (arrival : Int) (i : Nat) :
    Except Err SimState :=
  if i < st.machines.length then
    match st.procTimes.get? i with
    | none => .error .indexError
    | some sampler =>
        requestMachine { st with g := (sampler st.g).2 } i
          (.jobGranted i arrival (max 1000000 (sampler st.g).1))
  else
    .ok { st with stats :=
      { st.stats with
        completed_times := st.stats.completed_times ++ [st.now - arrival],
        completion_times := st.stats.completion_times ++ [st.now] } }

/-- One check of the inner while loop of `job_process` (lines 46-59),
executed when the job (re-)enters the loop at the current instant:
while `remaining > 1e-6`: if the machine is failed, retry after
`timeout(0.1)`; else if `next_failure_time - now <= 0`, retry after
`timeout(0.0)`; else advance by `step = min(remaining, t_until_fail)`.
On loop exit, line 59 credits `machine.busy_time += proc_time` (the full
drawn duration), the `with` block exit releases the resource (the holder
slot is freed at once and a Release event is scheduled whose processing
grants the next waiter), and the job synchronously enters the next stage. -/
def jobLoopIter (st : SimState) (i : Nat) (arrival procTime remaining : Int) :
    Except Err SimState :=
  if remaining > 100 then
    match st.machines.get? i with
    | none => .error .indexError
    | some m =>
      if m.failed then
        schedule st 10000000 1 (.jobWake i arrival procTime remaining)
      else
        if m.next_failure_time - st.now ≤ 0 then
          schedule st 0 1 (.jobWake i arrival procTime remaining)
        else
          schedule st (min remaining (m.next_failure_time - st.now)) 1
            (.jobWake i arrival procTime
              (remaining - min remaining (m.next_failure_time - st.now)))
  else
    match st.machines.get? i with
    | none => .error .indexError
    | some m =>
      match schedule (setMachine st i
          { m with busy_time := m.busy_time + procTime, holder := false })
          0 1 (.releaseEvt i) with
      | .error e => .error e
      | .ok st₂ => jobStage st₂ arrival (i + 1)

/-- Processing of the SimPy `Release` event: if the resource is free and
the FIFO queue nonempty, grant its head via an event at `now`. -/
def processRelease (st : SimState) (i : Nat) : Except Err SimState :=
  match st.machines.get? i with
  | none => .error .indexError
  | some m =>
    if m.holder then .ok st
    else
      match m.waitq with
      | [] => .ok st
      | h :: t => schedule (setMachine st i { m with holder := true, waitq := t }) 0 1 h

/-- Top of the `job_generator` loop (lines 65-67): while `env.now < sim_time`,
draw `inter = random.expovariate(arrival_rate)` and `yield env.timeout(inter)`;
otherwise the generator process ends. -/
def processGenLoop (lib : RandomLib) (st : SimState) : Except Err SimState :=
  if st.now < st.simTime then
    match expoRateCall lib st.arrivalRate st.g with
    | .error e => .error e
    | .ok (inter, g') => schedule { st with g := g' } inter 1 .genWake
  else .ok st

/-- Resumption of `job_generator` (lines 68-70): spawn a `job_process`
(initialization event, urgent at `now`), increment `stats['generated']`,
and synchronously continue the loop. -/
def processGenWake (lib : RandomLib) (st : SimState) : Except Err SimState :=
  match schedule st 0 0 .jobStart with
  | .error e => .error e
  | .ok st₁ =>
      processGenLoop lib
        { st₁ with stats := { st₁.stats with generated := st₁.stats.generated + 1 } }

/-- Dispatch one resumed continuation. -/
def processCont (lib : RandomLib) (st : SimState) (c : Cont) :
    Except Err SimState :=
  match c with
  | .monStart i => processMonStart st i
  | .monFire i => processMonFire st i
  | .repairStart i => processRepairStart lib st i
  | .repairEnd i ds => processRepairEnd lib st i ds
  | .genLoop => processGenLoop lib st
  | .genWake => processGenWake lib st
  | .jobStart => jobStage st st.now 0
  | .jobGranted i a pt => jobLoopIter st i a pt pt
  | .jobWake i a pt rem => jobLoopIter st i a pt rem
  | .releaseEvt i => processRelease st i

/-- `env.run(until=T)` (line 88): repeatedly pop the earliest event while its
due time is `< T` and resume it; then set the clock to `T`, abandoning
everything still pending.  `fuel` bounds the number of steps (an artifact of
the embedding; exhausting it is reported as `outOfFuel`, never silently). -/
def runLoop (lib : RandomLib) (T : Int) : Nat → SimState → Except Err SimState
  | 0, st =>
    match st.queue with
    | [] => .ok { st with now := T }
    | e :: _ => if e.time < T then .error .outOfFuel else .ok { st with now := T }
  | fuel + 1, st =>
    match st.queue with
    | [] => .ok { st with now := T }
    | e :: rest =>
      if e.time < T then
        match processCont lib { st with now := e.time, queue := rest } e.cont with
        | .error err => .error err
        | .ok st₁ => runLoop lib T fuel st₁
      else .ok { st with now := T }

/-- Process exactly `n` pending events, with no horizon cutoff: an inspection
driver used to exhibit intermediate states of a run. -/
def runSteps (lib : RandomLib) : Nat → SimState → Except Err SimState
  | 0, st => .ok st
  | n + 1, st =>
    match st.queue with
    | [] => .ok st
    | e :: rest =>
      match processCont lib { st with now := e.time, queue := rest } e.cont with
      | .error err => .error err
      | .ok st₁ => runSteps lib n st₁

/-- Lines 75-87 of `run_simulation_once`: build the three hard-wired
machines `M1 (CNC)`, `M2 (Finish)`, `Assembly` from entries 0-2 of the
parameter sequences (each construction draws its first time to failure),
start one failure monitor per machine and the job generator (initialization
events at time 0, in creation order), and initialize `stats`. -/
def setup (lib : RandomLib) (params : Params) (simTime : Int) (g : Nat) :
    Except Err SimState :=
  match lIdx params.mttf 0 with
  | .error e => .error e
  | .ok tf0 =>
  match lIdx params.mttr 0 with
  | .error e => .error e
  | .ok tr0 =>
  match schedule_next_failure lib
      ⟨"M1 (CNC)", tf0, tr0, 0, 0, 0, false, false, [], []⟩ 0 g with
  | .error e => .error e
  | .ok (m0, g0) =>
  match lIdx params.mttf 1 with
  | .error e => .error e
  | .ok tf1 =>
  match lIdx params.mttr 1 with
  | .error e => .error e
  | .ok tr1 =>
  match schedule_next_failure lib
      ⟨"M2 (Finish)", tf1, tr1, 0, 0, 0, false, false, [], []⟩ 0 g0 with
  | .error e => .error e
  | .ok (m1, g1) =>
  match lIdx params.mttf 2 with
  | .error e => .error e
  | .ok tf2 =>
  match lIdx params.mttr 2 with
  | .error e => .error e
  | .ok tr2 =>
  match schedule_next_failure lib
      ⟨"Assembly", tf2, tr2, 0, 0, 0, false, false, [], []⟩ 0 g1 with
  | .error e => .error e
  | .ok (m2, g2) =>
      .ok { now := 0
            queue := [⟨0, 0, 0, .monStart 0⟩, ⟨0, 0, 1, .monStart 1⟩,
                      ⟨0, 0, 2, .monStart 2⟩, ⟨0, 0, 3, .genLoop⟩]
            nextEid := 4
            machines := [m0, m1, m2]
            stats := ⟨0, [], []⟩
            g := g2
            procTimes := params.process_times
            arrivalRate := params.arrival_rate
            simTime := simTime }

/-- Per-machine entry of `machine_stats` (lines 94-103).  `busy_time` and
`downtime` are fixed-point times; `utilization = busy_time / sim_time` and
`down_frac = downtime / sim_time` are rationals. -/
structure MachineStat where
  name : String
  busy_time : Int
  downtime : Int
  utilization : ℚ
  down_frac : ℚ
deriving DecidableEq, Repr

/-- The result dict of `run_simulation_once` (lines 90-110).
`throughput_per_hr = len(completion_times) / (sim_time / 60)`;
`avg_lead_time_min` is `None` when no job completed, else the mean of
`completed_times`. -/
structure SimResult where
  throughput_per_hr : ℚ
  avg_lead_time_min : Option ℚ
  generated : Nat
  completed : Nat
  machine_stats : List MachineStat
deriving DecidableEq, Repr

/-- KPI aggregation (lines 90-110). -/
def mkResult (stats : Stats) (machines : List Machine) (simTime : Int) :
    SimResult :=
  { throughput_per_hr := (stats.completion_times.length : ℚ) / (toMin simTime / 60)
    avg_lead_time_min :=
      if stats.completed_times.isEmpty then none
      else some (toMin stats.completed_times.sum / (stats.completed_times.length : ℚ))
    generated := stats.generated
    completed := stats.completion_times.length
    machine_stats := machines.map fun m =>
      { name := m.name, busy_time := m.busy_time, downtime := m.downtime,
        utilization := toMin m.busy_time / toMin simTime,
        down_frac := toMin m.downtime / toMin simTime } }

/-- Lines 73-74: `if seed is not None: random.seed(seed)` — the global
`random` state entering the run. -/
def seedApply (lib : RandomLib) (seed : Option Nat) (g : Nat) : Nat :=
  match seed with
  | some s => lib.seed s
  | none => g

/-- Lines 72-88 and the event loop: seed if requested, build the world,
check `until` as `env.run` does, drive to the horizon; the final state. -/
def runSimFinal (fuel : Nat) (lib : RandomLib) (params : Params)
    (simTime : Int) (seed : Option Nat) (g : Nat) : Except Err SimState :=
  match setup lib params simTime (seedApply lib seed g) with
  | .error e => .error e
  | .ok st₀ =>
      if simTime ≤ 0 then .error .invalidUntil
      else runLoop lib simTime fuel st₀

/-- `run_simulation_once(params, sim_time_minutes, seed)` (lines 72-110):
the result record, paired with the state of the process-wide `random`
module after the call. -/
def run_simulation_once (fuel : Nat) (lib : RandomLib) (params : Params)
    (simTime : Int) (seed : Option Nat) (g : Nat) :
    Except Err (SimResult × Nat) :=
  match runSimFinal fuel lib params simTime seed g with
  | .error e => .error e
  | .ok st => .ok (mkResult st.stats st.machines simTime, st.g)

/-! The replication runner, `simulation/simulation_runner.py`.  The module
writes one CSV file per scenario (`run_and_save`, lines 49-62) and prints
progress; we model the sequence of result records produced for a scenario
(each CSV row is the 5-field projection `rep, throughput_per_hr,
avg_lead_time_min, generated, completed` of its record).  The file writes
and prints are I/O effects outside the pure state; the global `random`
state keeps being threaded. -/

/-- `baseline_params()` (runner lines 10-19): process-time closures
`max(0.1, normalvariate(mu, sigma))` drawing from the global `random`
state, with the scenario's rates and means.  Fixed-point: `0.1 = 10^7`,
`10 min = 10^9`, `1.5 min = 1.5*10^8`, and so on. -/
def baseline_params (lib : RandomLib) : Params :=
  { arrival_rate := ⟨1, 20⟩
    mttf := [20000000000, 30000000000, 40000000000]
    mttr := [4000000000, 3000000000, 3000000000]
    process_times :=
      [fun g => let p := lib.normal 1000000000 150000000 g; (max 10000000 p.1, p.2),
       fun g => let p := lib.normal 800000000 100000000 g; (max 10000000 p.1, p.2),
       fun g => let p := lib.normal 600000000 50000000 g; (max 10000000 p.1, p.2)] }

/-- `connected_params()` (runner lines 21-30). -/
def connected_params (lib : RandomLib) : Params :=
  { arrival_rate := ⟨1, 18⟩
    mttf := [30000000000, 45000000000, 60000000000]
    mttr := [3000000000, 2000000000, 2000000000]
    process_times :=
      [fun g => let p := lib.normal 900000000 120000000 g; (max 10000000 p.1, p.2),
       fun g => let p := lib.normal 750000000 90000000 g; (max 10000000 p.1, p.2),
       fun g => let p := lib.normal 550000000 40000000 g; (max 10000000 p.1, p.2)] }

/-- `predictive_params()` (runner lines 32-41). -/
def predictive_params (lib : RandomLib) : Params :=
  { arrival_rate := ⟨1, 16⟩
    mttf := [60000000000, 90000000000, 120000000000]
    mttr := [1500000000, 1200000000, 1000000000]
    process_times :=
      [fun g => let p := lib.normal 850000000 100000000 g; (max 10000000 p.1, p.2),
       fun g => let p := lib.normal 700000000 80000000 g; (max 10000000 p.1, p.2),
       fun g => let p := lib.normal 500000000 30000000 g; (max 10000000 p.1, p.2)] }

/-- The `SCENARIOS` table (runner lines 43-47). -/
def scenarios (lib : RandomLib) : List (String × Params) :=
  [("level1_baseline", baseline_params lib),
   ("level3_connected", connected_params lib),
   ("level4_predictive", predictive_params lib)]

/-- The inner loop of `run_and_save` for one scenario (runner lines 56-61),
started at replication `rep` with `k` replications left to run: for each
replication, `seed = rep * 100 + 7`; `random.seed(seed)`; the params
closures are rebuilt (drawing nothing); then
`run_simulation_once(params, sim_time_minutes, seed)` runs (reseeding with
the same seed) and its record is emitted as a CSV row.  Returns the ordered
sequence of (rep, record) pairs and the final global `random` state. -/
def runRepsAux (fuel : Nat) (lib : RandomLib) (params : Params) (T : Int) :
    Nat → Nat → Nat → Except Err (List (Nat × SimResult) × Nat)
  | 0, _rep, g => .ok ([], g)
  | k + 1, rep, _g =>
    match run_simulation_once fuel lib params T (some (rep * 100 + 7))
        (lib.seed (rep * 100 + 7)) with
    | .error e => .error e
    | .ok (res, g₂) =>
      match runRepsAux fuel lib params T k (rep + 1) g₂ with
      | .error e => .error e
      | .ok (rows, g₃) => .ok ((rep, res) :: rows, g₃)

/-- The replication sequence `run_and_save` produces for one scenario:
replications 1 to `nRep`. -/
def runScenario (fuel : Nat) (lib : RandomLib) (params : Params) (T : Int)
    (nRep : Nat) (g : Nat) : Except Err (List (Nat × SimResult) × Nat) :=
  runRepsAux fuel lib params T nRep 1 g

/-- `run_and_save(n_rep, sim_time_min)` (runner lines 49-62): one CSV file
per scenario, modelled as the list of (scenario name, replication rows);
the name stands for the file `simulation/precomputed_results/{name}.csv`
the code writes. -/
def run_and_save (fuel : Nat) (lib : RandomLib) (nRep : Nat) (T : Int)
    (g : Nat) : Except Err (List (String × List (Nat × SimResult)) × Nat) :=
  match runScenario fuel lib (baseline_params lib) T nRep g with
  | .error e => .error e
  | .ok (r1, g1) =>
  match runScenario fuel lib (connected_params lib) T nRep g1 with
  | .error e => .error e
  | .ok (r2, g2) =>
  match runScenario fuel lib (predictive_params lib) T nRep g2 with
  | .error e => .error e
  | .ok (r3, g3) =>
      .ok ([("level1_baseline", r1), ("level3_connected", r2),
            ("level4_predictive", r3)], g3)

/-! Projections used to state concrete facts.  The result record carries
rational KPI fields; all concrete evaluation happens on the integer-valued
final state, and results are obtained from it by `mkResult`. -/

/-- The observable data of a final state: statistics, machines, and the
global `random` state (everything `run_simulation_once` reads from it). -/
def stateProj (st : SimState) : Stats × List Machine × Nat :=
  (st.stats, st.machines, st.g)

/-- Observable view of a finished run. -/
def stView (x : Except Err SimState) : Option (Stats × List Machine × Nat) :=
  x.toOption.map stateProj

/-- The exception a computation raised, if any. -/
def errView {α : Type} (x : Except Err α) : Option Err :=
  match x with
  | .error e => some e
  | .ok _ => none

/-- The final global `random`-module state of a run, when it succeeded. -/
def gView (x : Except Err (SimResult × Nat)) : Option Nat :=
  x.toOption.map Prod.snd

/-- The earliest pending event of a state, as (time, priority, continuation). -/
def headEvtView (x : Except Err SimState) : Option (Int × Nat × Cont) :=
  x.toOption.bind fun st => st.queue.head?.map fun e => (e.time, e.prio, e.cont)

/-- `busy_time` of machine `i`. -/
def busyView (x : Except Err SimState) (i : Nat) : Option Int :=
  x.toOption.bind fun st => (st.machines.get? i).map fun m => m.busy_time

/-! Counting and bookkeeping used by the run invariant. -/

/-- Whether a continuation belongs to a `job_process`. -/
def isJobCont : Cont → Bool
  | .jobStart => true
  | .jobGranted _ _ _ => true
  | .jobWake _ _ _ _ => true
  | _ => false

/-- Number of pending events that resume a `job_process`. -/
def countJob : List Event → Nat
  | [] => 0
  | e :: q => (cond (isJobCont e.cont) 1 0) + countJob q

/-- Total number of jobs queued in machine FIFO wait queues. -/
def waitSum : List Machine → Nat
  | [] => 0
  | m :: ms => m.waitq.length + waitSum ms

/-- Number of jobs in flight: every spawned, not-yet-completed job is
suspended either in the event queue or in exactly one machine wait queue. -/
def activeJobs (st : SimState) : Nat :=
  countJob st.queue + waitSum st.machines

/-- Total length of the recorded repair intervals. -/
def repairLogSum : List (Int × Int) → Int
  | [] => 0
  | p :: l => (p.2 - p.1) + repairLogSum l

/-- The machine list is the three hard-wired machines, in order. -/
def NamesOK (ms : List Machine) : Prop :=
  ms.map (fun m => m.name) = ["M1 (CNC)", "M2 (Finish)", "Assembly"]

/-- Every machine's downtime is exactly the summed length of its recorded
(completed) repair intervals. -/
def LogsOK (ms : List Machine) : Prop :=
  ∀ m ∈ ms, m.downtime = repairLogSum m.repair_log

/-- Every recorded repair interval ended strictly before the horizon. -/
def LogTOK (T : Int) (ms : List Machine) : Prop :=
  ∀ m ∈ ms, ∀ p ∈ m.repair_log, p.2 < T

/-- Machine wait queues hold only job continuations. -/
def WqOK (ms : List Machine) : Prop :=
  ∀ m ∈ ms, ∀ c ∈ m.waitq, isJobCont c = true

/-- The run invariant, preserved by every event of a run to horizon `T`:
counting (each generated job is completed or in flight), the lockstep of the
two completion lists, wait queues hold only job continuations, downtime is
exactly the summed length of the recorded (completed) repair intervals, every
recorded repair ended before the horizon, and the machines are the three
hard-wired ones. -/
structure MInv (T : Int) (st : SimState) : Prop where
  count : st.stats.generated = st.stats.completion_times.length + activeJobs st
  lens : st.stats.completed_times.length = st.stats.completion_times.length
  wq : WqOK st.machines
  logs : LogsOK st.machines
  logT : LogTOK T st.machines
  names : NamesOK st.machines

/-! Concrete sampler libraries and parameter sets used to exercise the
engine on explicit inputs.  `tableLib` reads successive draws from a table
indexed by the global state (each draw advances the state by one), with a
very large default (1000 minutes), placing subsequent events far beyond the
horizons used. -/

/-- A deterministic stand-in for the `random` module: draw `k` returns
`tbl[k]` (default 1000 minutes) and advances the state. -/
def tableLib (tbl : List Int) : RandomLib :=
  { seed := fun _ => 0
    expoMean := fun _ g => (tbl.getD g 100000000000, g + 1)
    expoRate := fun _ g => (tbl.getD g 100000000000, g + 1)
    normal := fun _ _ g => (tbl.getD g 0, g + 1) }

/-- A processing-time closure whose draw is 0 (so the stage floor 0.01
applies), advancing the global state. -/
def zeroSampler : Sampler := fun g => (0, g + 1)

/-- A valid parameter set (mttf 1000 min, mttr 1000 min per stage). -/
def quietParams : Params :=
  { arrival_rate := ⟨1, 20⟩
    mttf := [100000000000, 100000000000, 100000000000]
    mttr := [100000000000, 100000000000, 100000000000]
    process_times := [zeroSampler, zeroSampler, zeroSampler] }

/-- All draws far in the future: no failure and no arrival within the
horizons used. -/
def quietLib : RandomLib := tableLib []

/-- Draws for the tolerance-exit probe: machine 0 first fails at
`1.01 min - 1e-7 min`, one job arrives at minute 1, all later draws far
away.  Its stage-0 processing time is the floor 0.01 min, so the advance
step is cut to `0.01 - 1e-7` min by the imminent failure. -/
def epsLib : RandomLib :=
  tableLib [100999990, 100000000000, 100000000000, 100000000, 100000000000]

/-- A valid parameter set with mttf 200 min and mttr 200 min per stage. -/
def epsParams : Params :=
  { arrival_rate := ⟨1, 20⟩
    mttf := [20000000000, 20000000000, 20000000000]
    mttr := [20000000000, 20000000000, 20000000000]
    process_times := [zeroSampler, zeroSampler, zeroSampler] }

/-- The world of the tolerance-exit probe after setup (seed 0 applied). -/
def epsStart : SimState :=
  ((setup epsLib epsParams 200000000 0).toOption).getD default

/-- A valid parameter set with mttf 200 min and mttr 40 min per stage. -/
def failParams : Params :=
  { arrival_rate := ⟨1, 20⟩
    mttf := [20000000000, 20000000000, 20000000000]
    mttr := [4000000000, 4000000000, 4000000000]
    process_times := [zeroSampler, zeroSampler, zeroSampler] }

/-- Draws for the horizon-crossing repair probe: machine 0 fails at minute
1 and its repair takes 10 minutes, crossing a 5-minute horizon. -/
def crossLib : RandomLib :=
  tableLib [100000000, 100000000000, 100000000000, 100000000000, 1000000000]

/-- Draws for the completed-repairs probe: machine 0 fails at minute 1 and
at minute 3, each repair taking 1 minute, both completing before a
5-minute horizon. -/
def twoRepairLib : RandomLib :=
  tableLib [100000000, 100000000000, 100000000000, 100000000000, 100000000,
            100000000, 100000000, 100000000]

/-- Draws for the degenerate-repair probe: machine 0 fails at minute 1 and
the drawn repair duration is exactly 0. -/
def zeroRepairLib : RandomLib :=
  tableLib [100000000, 100000000000, 100000000000, 100000000000, 0,
            100000000000]

/-- An invalid parameter set: `mttf` has four entries, `mttr` and
`process_times` have three (mismatched lengths). -/
def longParams : Params :=
  { arrival_rate := ⟨1, 20⟩
    mttf := [100000000000, 100000000000, 100000000000, 700000000]
    mttr := [100000000000, 100000000000, 100000000000]
    process_times := [zeroSampler, zeroSampler, zeroSampler] }

/-- An invalid parameter set: a negative mttf entry and a negative mttr
entry. -/
def negParams : Params :=
  { arrival_rate := ⟨1, 20⟩
    mttf := [-500000000, 100000000000, 100000000000]
    mttr := [100000000000, -100, 100000000000]
    process_times := [zeroSampler, zeroSampler, zeroSampler] }

/-- An invalid parameter set: `mttf` has only two entries. -/
def shortParams : Params :=
  { arrival_rate := ⟨1, 20⟩
    mttf := [100000000000, 100000000000]
    mttr := [100000000000, 100000000000, 100000000000]
    process_times := [zeroSampler, zeroSampler, zeroSampler] }

/-- A sampler library whose seeding visibly moves the global state:
`seed s = 10 s + 1`, and every draw advances the state. -/
def shiftSeedLib : RandomLib :=
  { seed := fun s => 10 * s + 1
    expoMean := fun _ g => (100000000000, g + 1)
    expoRate := fun _ g => (100000000000, g + 1)
    normal := fun _ _ g => (0, g + 1) }

/-- A machine of `quietParams` right after setup. -/
def quietMachine (nm : String) : Machine :=
  ⟨nm, 100000000000, 100000000000, 0, 0, 100000000000, false, false, [], []⟩

/-- Machine 0 of the tolerance-exit probe right after setup. -/
def epsM0 : Machine :=
  ⟨"M1 (CNC)", 20000000000, 20000000000, 0, 0, 100999990, false, false, [], []⟩

/-! Basic lemmas about the building blocks of the embedding. -/

/-- A successful run determines the result record: `run_simulation_once`
returns `mkResult` of the final statistics and machines, and the final
global `random` state. -/
theorem runOnce_of_stView {fuel : Nat} {lib : RandomLib} {params : Params}
    {T : Int} {seed : Option Nat} {g : Nat} {S : Stats} {M : List Machine}
    {G : Nat}
    (h : stView (runSimFinal fuel lib params T seed g) = some (S, M, G)) :
    run_simulation_once fuel lib params T seed g = .ok (mkResult S M T, G) := by
  unfold run_simulation_once
  unfold stView at h
  cases hr : runSimFinal fuel lib params T seed g with
  | error e => rw [hr] at h; simp [Except.toOption] at h
  | ok st =>
      rw [hr] at h
      simp only [Except.toOption, Option.map_some', Option.some.injEq,
        stateProj, Prod.mk.injEq] at h
      obtain ⟨h1, h2, h3⟩ := h
      subst h1 h2 h3
      rfl

/-- The seeded branch of `run_simulation_once` ignores the ambient global
`random` state: `random.seed(seed)` overwrites it. -/
theorem runOnce_seeded_const (fuel : Nat) (lib : RandomLib) (params : Params)
    (T : Int) (s : Nat) (g g' : Nat) :
    run_simulation_once fuel lib params T (some s) g
      = run_simulation_once fuel lib params T (some s) g' := rfl

/-- Inserting preserves the job-continuation count, adding the new event. -/
theorem countJob_insertEvent (e : Event) (q : List Event) :
    countJob (insertEvent e q) = (cond (isJobCont e.cont) 1 0) + countJob q := by
  induction q with
  | nil => rfl
  | cons x xs ih =>
      unfold insertEvent
      by_cases h : e.before x
      · simp [h, countJob]
      · simp [h, countJob, ih]; omega

/-- Unpacking a successful `schedule`. -/
theorem schedule_ok {st : SimState} {d : Int} {p : Nat} {c : Cont}
    {st' : SimState} (h : schedule st d p c = .ok st') :
    st' = { st with
      queue := insertEvent ⟨st.now + d, p, st.nextEid, c⟩ st.queue,
      nextEid := st.nextEid + 1 } := by
  unfold schedule at h
  split at h
  · exact Except.noConfusion h
  · injection h with h; exact h.symm

/-- What `schedule` changes and what it keeps. -/
theorem schedule_parts {st : SimState} {d : Int} {p : Nat} {c : Cont}
    {st' : SimState} (h : schedule st d p c = .ok st') :
    st'.stats = st.stats ∧ st'.machines = st.machines ∧ st'.now = st.now
    ∧ countJob st'.queue = (cond (isJobCont c) 1 0) + countJob st.queue := by
  rw [schedule_ok h]
  exact ⟨rfl, rfl, rfl, countJob_insertEvent _ _⟩

/-- An element of `l.set i b` is `b` or an element of `l`. -/
theorem mem_set_cases {α : Type} :
    ∀ (l : List α) (i : Nat) (b x : α), x ∈ l.set i b → x = b ∨ x ∈ l
  | [], _, _, _, hx => by simp at hx
  | a :: as, 0, b, x, hx => by
      rcases List.mem_cons.mp hx with h | h
      · exact .inl h
      · exact .inr (List.mem_cons_of_mem a h)
  | a :: as, i + 1, b, x, hx => by
      rcases List.mem_cons.mp hx with h | h
      · exact .inr (h ▸ List.mem_cons_self a as)
      · rcases mem_set_cases as i b x h with h' | h'
        · exact .inl h'
        · exact .inr (List.mem_cons_of_mem a h')

/-- Pointwise properties survive `List.set` when the new element has them. -/
theorem forall_mem_set {α : Type} {P : α → Prop} {l : List α} {i : Nat}
    {b : α} (h : ∀ x ∈ l, P x) (hb : P b) : ∀ x ∈ l.set i b, P x := by
  intro x hx
  rcases mem_set_cases l i b x hx with rfl | hx'
  · exact hb
  · exact h x hx'

/-- Mapping is unchanged by `set` when the map agrees on old and new
element. -/
theorem map_set_congr {α β : Type} {f : α → β} :
    ∀ {l : List α} {i : Nat} {a b : α}, l.get? i = some a → f b = f a →
      (l.set i b).map f = l.map f
  | [], i, _, _, hget, _ => by simp at hget
  | x :: xs, 0, a, b, hget, hf => by
      injection hget with hget
      simp [List.set, hget ▸ hf]
  | x :: xs, i + 1, a, b, hget, hf => by
      simp only [List.get?] at hget
      simp [List.set, map_set_congr (l := xs) hget hf]

/-- How `waitSum` changes across `set`, subtraction-free. -/
theorem waitSum_set :
    ∀ {l : List Machine} {i : Nat} {a b : Machine}, l.get? i = some a →
      waitSum (l.set i b) + a.waitq.length = waitSum l + b.waitq.length
  | [], i, _, _, hget => by simp at hget
  | x :: xs, 0, a, b, hget => by
      injection hget with hget
      subst hget
      simp [List.set, waitSum]; omega
  | x :: xs, i + 1, a, b, hget => by
      simp only [List.get?] at hget
      have := waitSum_set (l := xs) (b := b) hget
      simp [List.set, waitSum]; omega

/-- `get?` after `set` at the same index. -/
theorem get?_set_self {α : Type} :
    ∀ {l : List α} {i : Nat} {a b : α}, l.get? i = some a →
      (l.set i b).get? i = some b
  | [], i, _, _, hget => by simp at hget
  | x :: xs, 0, _, _, _ => rfl
  | x :: xs, i + 1, a, b, hget => by
      simp only [List.get?] at hget ⊢
      exact get?_set_self (l := xs) hget

/-- Appending one interval to the repair log adds its length. -/
theorem repairLogSum_append (l : List (Int × Int)) (p : Int × Int) :
    repairLogSum (l ++ [p]) = repairLogSum l + (p.2 - p.1) := by
  induction l with
  | nil => simp [repairLogSum]
  | cons q l ih => simp [repairLogSum, ih]; omega

/-- Replacing machine `i` by one with the same name, downtime and repair log
preserves the name, downtime-accounting and horizon facts. -/
theorem set_pres {ms : List Machine} {i : Nat} {mi : Machine} (m : Machine)
    (hget : ms.get? i = some mi) (hn : m.name = mi.name)
    (hd : m.downtime = mi.downtime) (hr : m.repair_log = mi.repair_log) :
    (NamesOK ms → NamesOK (ms.set i m))
    ∧ (LogsOK ms → LogsOK (ms.set i m))
    ∧ (∀ T, LogTOK T ms → LogTOK T (ms.set i m)) := by
  have hmi : mi ∈ ms := List.get?_mem hget
  refine ⟨?_, ?_, ?_⟩
  · intro h
    unfold NamesOK at h ⊢
    rw [map_set_congr hget hn, h]
  · intro h
    refine forall_mem_set h ?_
    show m.downtime = repairLogSum m.repair_log
    rw [hd, hr]; exact h mi hmi
  · intro T h
    refine forall_mem_set h ?_
    show ∀ p ∈ m.repair_log, p.2 < T
    rw [hr]; exact h mi hmi

/-- Effect of a resource request carrying a job continuation: the
statistics and clock are unchanged, exactly one job is added to the pending
count (either queued in the FIFO or granted through a scheduled event), and
the machine bookkeeping facts survive. -/
theorem requestMachine_parts {st : SimState} {i : Nat} {c : Cont}
    {st' : SimState} (hok : requestMachine st i c = .ok st')
    (hc : isJobCont c = true) (hwq : WqOK st.machines) :
    st'.stats = st.stats ∧ st'.now = st.now
    ∧ countJob st'.queue + waitSum st'.machines
        = countJob st.queue + waitSum st.machines + 1
    ∧ WqOK st'.machines
    ∧ (NamesOK st.machines → NamesOK st'.machines)
    ∧ (LogsOK st.machines → LogsOK st'.machines)
    ∧ (∀ T, LogTOK T st.machines → LogTOK T st'.machines) := by
  unfold requestMachine at hok
  split at hok
  next => exact Except.noConfusion hok
  next mi hget =>
    have hmi : mi ∈ st.machines := List.get?_mem hget
    split at hok
    next hh =>
      injection hok with hok
      subst hok
      have hws := waitSum_set (l := st.machines)
        (b := { mi with waitq := mi.waitq ++ [c] }) hget
      have hsp := set_pres
        { mi with waitq := mi.waitq ++ [c] } hget rfl rfl rfl
      refine ⟨rfl, rfl, ?_, ?_, hsp.1, hsp.2.1, hsp.2.2⟩
      · show countJob st.queue + waitSum (st.machines.set i _)
          = countJob st.queue + waitSum st.machines + 1
        simp only [List.length_append, List.length_singleton] at hws
        omega
      · refine forall_mem_set hwq ?_
        intro x hx
        rcases List.mem_append.mp hx with h | h
        · exact hwq mi hmi x h
        · rw [List.mem_singleton.mp h]; exact hc
    next hh =>
      split at hok
      next hwt => simp at hwt
      next h t hwt =>
        have hsch := schedule_parts hok
        have hshape := schedule_ok hok
        have hjh : isJobCont h = true := by
          cases hq : mi.waitq with
          | nil =>
              rw [hq, List.nil_append] at hwt
              injection hwt with h1 _
              rw [← h1]; exact hc
          | cons a as =>
              rw [hq, List.cons_append] at hwt
              injection hwt with h1 _
              rw [← h1]
              exact hwq mi hmi a (hq ▸ List.mem_cons_self a as)
        have hlen : t.length = mi.waitq.length := by
          have := congrArg List.length hwt
          simp at this
          omega
        have hws := waitSum_set (l := st.machines)
          (b := { mi with holder := true, waitq := t }) hget
        have hsp := set_pres
          { mi with holder := true, waitq := t } hget rfl rfl rfl
        have hwq' : WqOK ((setMachine st i
            { mi with holder := true, waitq := t }).machines) := by
          refine forall_mem_set hwq ?_
          intro x hx
          have hx' : x ∈ mi.waitq ++ [c] := by
            rw [hwt]; exact List.mem_cons_of_mem h hx
          rcases List.mem_append.mp hx' with h' | h'
          · exact hwq mi hmi x h'
          · rw [List.mem_singleton.mp h']; exact hc
        obtain ⟨hs1, hs2, hs3, hs4⟩ := hsch
        refine ⟨hs1, hs3, ?_, ?_, ?_, ?_, ?_⟩
        · rw [hs4, hs2]
          show (cond (isJobCont h) 1 0) + countJob st.queue
              + waitSum ((setMachine st i _).machines) = _
          rw [hjh]
          simp only [setMachine] at hws ⊢
          simp only [cond_true]
          omega
        · rw [hs2]; exact hwq'
        · rw [hs2]; exact hsp.1
        · rw [hs2]; exact hsp.2.1
        · intro T; rw [hs2]; exact hsp.2.2 T

/-- Effect of entering stage `i` of a job (request the stage machine, or
record the completed job past the last stage): statistics count one more
pending-or-completed job, the completion lists stay in lockstep, and the
machine bookkeeping facts survive. -/
theorem jobStage_parts {st : SimState} {a : Int} {i : Nat} {st' : SimState}
    (hok : jobStage st a i = .ok st') (hwq : WqOK st.machines) :
    st'.stats.generated = st.stats.generated
    ∧ st'.stats.completion_times.length + activeJobs st'
        = st.stats.completion_times.length + activeJobs st + 1
    ∧ st'.stats.completed_times.length + st.stats.completion_times.length
        = st.stats.completed_times.length + st'.stats.completion_times.length
    ∧ WqOK st'.machines
    ∧ (NamesOK st.machines → NamesOK st'.machines)
    ∧ (LogsOK st.machines → LogsOK st'.machines)
    ∧ (∀ T, LogTOK T st.machines → LogTOK T st'.machines) := by
  unfold jobStage at hok
  split at hok
  · split at hok
    next => exact Except.noConfusion hok
    next sampler hs =>
      obtain ⟨h1, _h2, h3, h4, h5, h6, h7⟩ := requestMachine_parts hok rfl hwq
      have e1 : st'.stats.completion_times.length
          = st.stats.completion_times.length := by rw [h1]
      have e3 : st'.stats.completed_times.length
          = st.stats.completed_times.length := by rw [h1]
      have e4 : st'.stats.generated = st.stats.generated := by rw [h1]
      have e2 : countJob st'.queue + waitSum st'.machines
          = countJob st.queue + waitSum st.machines + 1 := h3
      refine ⟨e4, ?_, ?_, h4, h5, h6, h7⟩
      · show st'.stats.completion_times.length
          + (countJob st'.queue + waitSum st'.machines) = _
        rw [e1, e2]
        rfl
      · omega
  · injection hok with hok
    subst hok
    refine ⟨rfl, ?_, ?_, hwq, id, id, fun _ => id⟩
    · show (st.stats.completion_times ++ [st.now]).length + activeJobs st = _
      rw [List.length_append]
      simp
      omega
    · show (st.stats.completed_times ++ [st.now - a]).length + _
        = st.stats.completed_times.length
          + (st.stats.completion_times ++ [st.now]).length
      rw [List.length_append, List.length_append]
      simp
      omega

/-- Effect of one check of the inner processing loop of a job at stage `i`:
the loop either reschedules the same job (a stall retry or an advance step)
or finishes the stage and synchronously enters the next; in each case the
bundle of accounting facts of `jobStage_parts` holds. -/
theorem jobLoopIter_parts {st : SimState} {i : Nat} {a pt rem : Int}
    {st' : SimState} (hok : jobLoopIter st i a pt rem = .ok st')
    (hwq : WqOK st.machines) :
    st'.stats.generated = st.stats.generated
    ∧ st'.stats.completion_times.length + activeJobs st'
        = st.stats.completion_times.length + activeJobs st + 1
    ∧ st'.stats.completed_times.length + st.stats.completion_times.length
        = st.stats.completed_times.length + st'.stats.completion_times.length
    ∧ WqOK st'.machines
    ∧ (NamesOK st.machines → NamesOK st'.machines)
    ∧ (LogsOK st.machines → LogsOK st'.machines)
    ∧ (∀ T, LogTOK T st.machines → LogTOK T st'.machines) := by
  unfold jobLoopIter at hok
  split at hok
  · -- work remains: one of the three reschedules of the same job
    split at hok
    next => exact Except.noConfusion hok
    next m hget =>
      have hbundle : ∀ {st'' : SimState} {d : Int} {i' : Nat} {a' pt' r' : Int},
          schedule st d 1 (.jobWake i' a' pt' r') = .ok st'' → d = d →
          st''.stats.generated = st.stats.generated
          ∧ st''.stats.completion_times.length + activeJobs st''
              = st.stats.completion_times.length + activeJobs st + 1
          ∧ st''.stats.completed_times.length + st.stats.completion_times.length
              = st.stats.completed_times.length
                + st''.stats.completion_times.length
          ∧ WqOK st''.machines
          ∧ (NamesOK st.machines → NamesOK st''.machines)
          ∧ (LogsOK st.machines → LogsOK st''.machines)
          ∧ (∀ T, LogTOK T st.machines → LogTOK T st''.machines) := by
        intro st'' d i' a' pt' r' hsch _
        obtain ⟨h1, h2, h3, h4⟩ := schedule_parts hsch
        have e2 : activeJobs st'' = activeJobs st + 1 := by
          show countJob st''.queue + waitSum st''.machines = _
          rw [h4, h2]
          show 1 + countJob st.queue + waitSum st.machines = _
          unfold activeJobs
          omega
        rw [h1, h2, e2]
        exact ⟨rfl, by omega, by omega, hwq, id, id, fun _ => id⟩
      split at hok
      · exact hbundle hok rfl
      · split at hok
        · exact hbundle hok rfl
        · exact hbundle hok rfl
  · -- loop exit: credit the stage, release, enter the next stage
    split at hok
    next => exact Except.noConfusion hok
    next m hget =>
      split at hok
      next => exact Except.noConfusion hok
      next st₂ hs =>
        have hmi : m ∈ st.machines := List.get?_mem hget
        obtain ⟨h1, h2, h3, h4⟩ := schedule_parts hs
        have hsp := set_pres
          { m with busy_time := m.busy_time + pt, holder := false }
          hget rfl rfl rfl
        have hws := waitSum_set (l := st.machines)
          (b := { m with busy_time := m.busy_time + pt, holder := false }) hget
        have hwq₂ : WqOK st₂.machines := by
          rw [h2]
          exact forall_mem_set hwq (fun c hc => hwq m hmi c hc)
        obtain ⟨g1, g2, g3, g4, g5, g6, g7⟩ := jobStage_parts hok hwq₂
        have e0 : st₂.stats = st.stats := h1
        have hq2 : countJob st₂.queue = countJob st.queue := by
          rw [h4]
          simp [setMachine, isJobCont]
        have hw2 : waitSum st₂.machines = waitSum st.machines := by
          rw [h2]
          simp only [setMachine] at hws ⊢
          simp at hws
          omega
        have eA : activeJobs st₂ = activeJobs st := by
          unfold activeJobs
          rw [hq2, hw2]
        refine ⟨?_, ?_, ?_, g4, ?_, ?_, ?_⟩
        · rw [g1, e0]
        · rw [e0, eA] at g2
          exact g2
        · rw [e0] at g3
          exact g3
        · intro h
          exact g5 (by rw [h2]; exact hsp.1 h)
        · intro h
          exact g6 (by rw [h2]; exact hsp.2.1 h)
        · intro T h
          exact g7 T (by rw [h2]; exact hsp.2.2 T h)

/-- Scheduling a non-job event preserves the invariant. -/
theorem minv_of_schedule {T : Int} {stB st' : SimState} {d : Int} {p : Nat}
    {c : Cont} (hsch : schedule stB d p c = .ok st')
    (hc : isJobCont c = false)
    (hcount : stB.stats.generated
      = stB.stats.completion_times.length + activeJobs stB)
    (hlens : stB.stats.completed_times.length
      = stB.stats.completion_times.length)
    (hwq : WqOK stB.machines) (hlogs : LogsOK stB.machines)
    (hlogT : LogTOK T stB.machines) (hnames : NamesOK stB.machines) :
    MInv T st' := by
  obtain ⟨h1, h2, _h3, h4⟩ := schedule_parts hsch
  refine ⟨?_, ?_, ?_, ?_, ?_, ?_⟩
  · rw [h1]
    unfold activeJobs
    rw [h4, h2, hc]
    unfold activeJobs at hcount
    simp only [cond_false, Nat.zero_add]
    exact hcount
  · rw [h1]; exact hlens
  · rw [h2]; exact hwq
  · rw [h2]; exact hlogs
  · rw [h2]; exact hlogT
  · rw [h2]; exact hnames

/-- A redrawn next failure changes nothing but `next_failure_time`. -/
theorem snf_parts {lib : RandomLib} {m : Machine} {now : Int} {g : Nat}
    {m' : Machine} {g' : Nat}
    (h : schedule_next_failure lib m now g = .ok (m', g')) :
    m'.name = m.name ∧ m'.downtime = m.downtime
    ∧ m'.repair_log = m.repair_log ∧ m'.waitq = m.waitq := by
  unfold schedule_next_failure at h
  split at h
  next => exact Except.noConfusion h
  next ttf g₂ _hE =>
    injection h with h
    injection h with hA hB
    rw [← hA]
    exact ⟨rfl, rfl, rfl, rfl⟩

/-- The generator loop draws and schedules its next wake (or ends): the
statistics, machines and pending job count are untouched. -/
theorem genLoop_bundle {lib : RandomLib} {st₂ st' : SimState}
    (hok : processGenLoop lib st₂ = .ok st') :
    st'.stats = st₂.stats ∧ st'.machines = st₂.machines
    ∧ countJob st'.queue = countJob st₂.queue := by
  unfold processGenLoop at hok
  split at hok
  · split at hok
    next => exact Except.noConfusion hok
    next inter g₂ _hE =>
      obtain ⟨a1, a2, _a3, a4⟩ := schedule_parts hok
      refine ⟨a1, a2, ?_⟩
      rw [a4]
      simp [isJobCont]
  · injection hok with hok
    subst hok
    exact ⟨rfl, rfl, rfl⟩

/-- Core preservation: processing any single continuation keeps the run
invariant, where the count hypothesis accounts for the popped event. -/
theorem processCont_inv {lib : RandomLib} {T : Int} {st : SimState} {c : Cont}
    {st' : SimState} (hok : processCont lib st c = .ok st') (hT : st.now < T)
    (hcount : st.stats.generated
      = st.stats.completion_times.length + activeJobs st
        + cond (isJobCont c) 1 0)
    (hlens : st.stats.completed_times.length
      = st.stats.completion_times.length)
    (hwq : WqOK st.machines) (hlogs : LogsOK st.machines)
    (hlogT : LogTOK T st.machines) (hnames : NamesOK st.machines) :
    MInv T st' := by
  have hjob :
      (st'.stats.generated = st.stats.generated
      ∧ st'.stats.completion_times.length + activeJobs st'
          = st.stats.completion_times.length + activeJobs st + 1
      ∧ st'.stats.completed_times.length + st.stats.completion_times.length
          = st.stats.completed_times.length + st'.stats.completion_times.length
      ∧ WqOK st'.machines
      ∧ (NamesOK st.machines → NamesOK st'.machines)
      ∧ (LogsOK st.machines → LogsOK st'.machines)
      ∧ (∀ T', LogTOK T' st.machines → LogTOK T' st'.machines))
      → cond (isJobCont c) 1 0 = 1 → MInv T st' := by
    intro hb hcond
    obtain ⟨b1, b2, b3, b4, b5, b6, b7⟩ := hb
    rw [hcond] at hcount
    refine ⟨by omega, by omega, b4, b6 hlogs, b7 T hlogT, b5 hnames⟩
  cases c with
  | monStart i =>
      simp only [processCont] at hok
      unfold processMonStart at hok
      split at hok
      next => exact Except.noConfusion hok
      next m _hget =>
        exact minv_of_schedule hok rfl hcount hlens hwq hlogs hlogT hnames
  | monFire i =>
      simp only [processCont] at hok
      unfold processMonFire at hok
      exact minv_of_schedule hok rfl hcount hlens hwq hlogs hlogT hnames
  | repairStart i =>
      simp only [processCont] at hok
      unfold processRepairStart at hok
      split at hok
      next => exact Except.noConfusion hok
      next m hget =>
        split at hok
        next => exact Except.noConfusion hok
        next rt g₂ _hE =>
          have hmi : m ∈ st.machines := List.get?_mem hget
          have hsp := set_pres { m with failed := true }
            hget rfl rfl rfl
          have hws := waitSum_set (l := st.machines)
            (b := { m with failed := true }) hget
          refine minv_of_schedule hok rfl ?_ hlens ?_ (hsp.2.1 hlogs)
            (hsp.2.2 T hlogT) (hsp.1 hnames)
          · show st.stats.generated = st.stats.completion_times.length
              + activeJobs (setMachine { st with g := g₂ } i _)
            unfold activeJobs
            simp only [setMachine] at hws ⊢
            unfold activeJobs at hcount
            simp [isJobCont] at hcount
            omega
          · exact forall_mem_set hwq (fun c hc => hwq m hmi c hc)
  | repairEnd i ds =>
      simp only [processCont] at hok
      unfold processRepairEnd at hok
      split at hok
      next => exact Except.noConfusion hok
      next m hget =>
        split at hok
        next => exact Except.noConfusion hok
        next m' g₂ hSnf =>
          have hmi : m ∈ st.machines := List.get?_mem hget
          obtain ⟨e1, e2, e3, e4⟩ := snf_parts hSnf
          have e4' : m'.waitq = m.waitq := e4
          have hws := waitSum_set (l := st.machines) (b := m') hget
          refine minv_of_schedule hok rfl ?_ hlens ?_ ?_ ?_ ?_
          · show st.stats.generated = st.stats.completion_times.length
              + activeJobs (setMachine { st with g := g₂ } i m')
            unfold activeJobs
            simp only [setMachine] at hws ⊢
            rw [e4'] at hws
            unfold activeJobs at hcount
            simp [isJobCont] at hcount
            omega
          · show WqOK ((setMachine { st with g := g₂ } i m').machines)
            refine forall_mem_set hwq ?_
            rw [e4]
            exact fun c hc => hwq m hmi c hc
          · show LogsOK ((setMachine { st with g := g₂ } i m').machines)
            refine forall_mem_set hlogs ?_
            show m'.downtime = repairLogSum m'.repair_log
            rw [e2, e3]
            show m.downtime + (st.now - ds)
              = repairLogSum (m.repair_log ++ [(ds, st.now)])
            rw [repairLogSum_append, hlogs m hmi]
          · show LogTOK T ((setMachine { st with g := g₂ } i m').machines)
            refine forall_mem_set hlogT ?_
            intro p hp
            rw [e3] at hp
            rcases List.mem_append.mp hp with h' | h'
            · exact hlogT m hmi p h'
            · rw [List.mem_singleton.mp h']
              exact hT
          · show NamesOK ((setMachine { st with g := g₂ } i m').machines)
            unfold NamesOK at hnames ⊢
            show (st.machines.set i m').map _ = _
            rw [map_set_congr hget e1, hnames]
  | genLoop =>
      simp only [processCont] at hok
      unfold processGenLoop at hok
      split at hok
      · split at hok
        next => exact Except.noConfusion hok
        next inter g₂ _hE =>
          exact minv_of_schedule hok rfl hcount hlens hwq hlogs hlogT hnames
      · injection hok with hok
        subst hok
        exact ⟨by simpa using hcount, hlens, hwq, hlogs, hlogT, hnames⟩
  | genWake =>
      simp only [processCont] at hok
      unfold processGenWake at hok
      split at hok
      next => exact Except.noConfusion hok
      next st₁ hs₁ =>
        obtain ⟨p1, p2, _p3, p4⟩ := schedule_parts hs₁
        obtain ⟨b1, b2, b3⟩ := genLoop_bundle hok
        have b1' : st'.stats
            = { st₁.stats with generated := st₁.stats.generated + 1 } := b1
        have b2' : st'.machines = st₁.machines := b2
        have b3' : countJob st'.queue = countJob st₁.queue := b3
        have p4' : countJob st₁.queue = 1 + countJob st.queue := by
          rw [p4]; simp [isJobCont]
        have hG : st.stats.generated
            = st.stats.completion_times.length + activeJobs st := by
          simp [isJobCont] at hcount
          exact hcount
        refine ⟨?_, ?_, ?_, ?_, ?_, ?_⟩
        · rw [b1']
          show st₁.stats.generated + 1
            = st₁.stats.completion_times.length + activeJobs st'
          unfold activeJobs
          rw [b3', b2', p4', p2, p1]
          unfold activeJobs at hG
          omega
        · rw [b1']
          show st₁.stats.completed_times.length
            = st₁.stats.completion_times.length
          rw [p1]
          exact hlens
        · rw [b2', p2]; exact hwq
        · rw [b2', p2]; exact hlogs
        · rw [b2', p2]; exact hlogT
        · rw [b2', p2]; exact hnames
  | jobStart =>
      simp only [processCont] at hok
      exact hjob (jobStage_parts hok hwq) rfl
  | jobGranted i a pt =>
      simp only [processCont] at hok
      exact hjob (jobLoopIter_parts hok hwq) rfl
  | jobWake i a pt rem =>
      simp only [processCont] at hok
      exact hjob (jobLoopIter_parts hok hwq) rfl
  | releaseEvt i =>
      simp only [processCont] at hok
      unfold processRelease at hok
      split at hok
      next => exact Except.noConfusion hok
      next m hget =>
        have hmi : m ∈ st.machines := List.get?_mem hget
        split at hok
        · injection hok with hok
          subst hok
          exact ⟨by simpa using hcount, hlens, hwq, hlogs, hlogT, hnames⟩
        · split at hok
          next hq =>
            injection hok with hok
            subst hok
            exact ⟨by simpa using hcount, hlens, hwq, hlogs, hlogT, hnames⟩
          next h t hq =>
            obtain ⟨q1, q2, _q3, q4⟩ := schedule_parts hok
            have hjh : isJobCont h = true :=
              hwq m hmi h (hq ▸ List.mem_cons_self h t)
            have hws := waitSum_set (l := st.machines)
              (b := { m with holder := true, waitq := t }) hget
            have hsp := set_pres
              { m with holder := true, waitq := t } hget rfl rfl rfl
            refine ⟨?_, ?_, ?_, ?_, ?_, ?_⟩
            · rw [q1]
              unfold activeJobs
              rw [q4, q2, hjh]
              show st.stats.generated = st.stats.completion_times.length
                + (cond true 1 0 + countJob st.queue
                  + waitSum ((setMachine st i _).machines))
              simp only [setMachine] at hws ⊢
              rw [hq] at hws
              simp at hws
              unfold activeJobs at hcount
              simp [isJobCont] at hcount
              simp only [cond_true]
              omega
            · rw [q1]; exact hlens
            · rw [q2]
              refine forall_mem_set hwq ?_
              intro x hx
              exact hwq m hmi x (hq ▸ List.mem_cons_of_mem h hx)
            · rw [q2]; exact hsp.2.1 hlogs
            · rw [q2]; exact hsp.2.2 T hlogT
            · rw [q2]; exact hsp.1 hnames

/-- The event loop preserves the invariant down to the horizon state. -/
theorem runLoop_inv {lib : RandomLib} {T : Int} :
    ∀ {fuel : Nat} {st stF : SimState}, runLoop lib T fuel st = .ok stF →
      MInv T st → MInv T stF := by
  intro fuel
  induction fuel with
  | zero =>
      intro st stF hok hinv
      unfold runLoop at hok
      split at hok
      · injection hok with hok
        subst hok
        exact ⟨hinv.count, hinv.lens, hinv.wq, hinv.logs, hinv.logT, hinv.names⟩
      · split at hok
        · exact Except.noConfusion hok
        · injection hok with hok
          subst hok
          exact ⟨hinv.count, hinv.lens, hinv.wq, hinv.logs, hinv.logT,
            hinv.names⟩
  | succ fuel ih =>
      intro st stF hok hinv
      unfold runLoop at hok
      split at hok
      next _heq =>
        injection hok with hok
        subst hok
        exact ⟨hinv.count, hinv.lens, hinv.wq, hinv.logs, hinv.logT,
          hinv.names⟩
      next e rest heq =>
        split at hok
        next hlt =>
          split at hok
          next => exact Except.noConfusion hok
          next st₁ hp =>
            refine ih hok (processCont_inv hp hlt ?_ hinv.lens hinv.wq
              hinv.logs hinv.logT hinv.names)
            have hc := hinv.count
            unfold activeJobs at hc
            rw [heq] at hc
            show st.stats.generated = st.stats.completion_times.length
              + (countJob rest + waitSum st.machines)
              + cond (isJobCont e.cont) 1 0
            unfold countJob at hc
            omega
        next =>
          injection hok with hok
          subst hok
          exact ⟨hinv.count, hinv.lens, hinv.wq, hinv.logs, hinv.logT,
            hinv.names⟩

/-- The freshly built world satisfies the invariant for any horizon. -/
theorem setup_inv {lib : RandomLib} {params : Params} {simTime : Int}
    {g : Nat} {st₀ : SimState} (h : setup lib params simTime g = .ok st₀)
    (T : Int) : MInv T st₀ := by
  unfold setup at h
  split at h; next => exact Except.noConfusion h
  next tf0 _ =>
  split at h; next => exact Except.noConfusion h
  next tr0 _ =>
  split at h; next => exact Except.noConfusion h
  next m0 g0 hm0 =>
  split at h; next => exact Except.noConfusion h
  next tf1 _ =>
  split at h; next => exact Except.noConfusion h
  next tr1 _ =>
  split at h; next => exact Except.noConfusion h
  next m1 g1 hm1 =>
  split at h; next => exact Except.noConfusion h
  next tf2 _ =>
  split at h; next => exact Except.noConfusion h
  next tr2 _ =>
  split at h; next => exact Except.noConfusion h
  next m2 g2 hm2 =>
  obtain ⟨n0, d0, r0, w0⟩ := snf_parts hm0
  obtain ⟨n1, d1, r1, w1⟩ := snf_parts hm1
  obtain ⟨n2, d2, r2, w2⟩ := snf_parts hm2
  injection h with h
  subst h
  refine ⟨?_, rfl, ?_, ?_, ?_, ?_⟩
  · show 0 = 0 + activeJobs _
    unfold activeJobs
    simp [countJob, waitSum, isJobCont, w0, w1, w2]
  · intro m hm c hc
    simp only [List.mem_cons, List.not_mem_nil, or_false] at hm
    rcases hm with rfl | rfl | rfl
    · rw [w0] at hc; simp at hc
    · rw [w1] at hc; simp at hc
    · rw [w2] at hc; simp at hc
  · intro m hm
    simp only [List.mem_cons, List.not_mem_nil, or_false] at hm
    rcases hm with rfl | rfl | rfl
    · rw [d0, r0]; rfl
    · rw [d1, r1]; rfl
    · rw [d2, r2]; rfl
  · intro m hm p hp
    simp only [List.mem_cons, List.not_mem_nil, or_false] at hm
    rcases hm with rfl | rfl | rfl
    · rw [r0] at hp; simp at hp
    · rw [r1] at hp; simp at hp
    · rw [r2] at hp; simp at hp
  · show [m0.name, m1.name, m2.name] = _
    rw [n0, n1, n2]

/-- The final state of any successful run satisfies the invariant. -/
theorem runSimFinal_inv {fuel : Nat} {lib : RandomLib} {params : Params}
    {T : Int} {seed : Option Nat} {g : Nat} {stF : SimState}
    (h : runSimFinal fuel lib params T seed g = .ok stF) : MInv T stF := by
  unfold runSimFinal at h
  split at h
  next => exact Except.noConfusion h
  next st₀ hsetup =>
    split at h
    · exact Except.noConfusion h
    · exact runLoop_inv h (setup_inv hsetup T)

/-- Invariant facts visible through the final-state view. -/
theorem stView_facts {fuel : Nat} {lib : RandomLib} {params : Params}
    {T : Int} {seed : Option Nat} {g : Nat} {S : Stats} {M : List Machine}
    {G : Nat}
    (h : stView (runSimFinal fuel lib params T seed g) = some (S, M, G)) :
    S.completion_times.length ≤ S.generated
    ∧ S.completed_times.length = S.completion_times.length
    ∧ LogsOK M ∧ LogTOK T M ∧ NamesOK M := by
  unfold stView at h
  cases hr : runSimFinal fuel lib params T seed g with
  | error e => rw [hr] at h; simp [Except.toOption] at h
  | ok stF =>
      rw [hr] at h
      simp only [Except.toOption, Option.map_some', Option.some.injEq,
        stateProj, Prod.mk.injEq] at h
      obtain ⟨h1, h2, _h3⟩ := h
      subst h1 h2
      have hinv := runSimFinal_inv hr
      refine ⟨?_, hinv.lens, hinv.logs, hinv.logT, hinv.names⟩
      have := hinv.count
      omega

/-- `get?` after `set` at a different index. -/
theorem get?_set_ne {α : Type} :
    ∀ {l : List α} {i j : Nat} {b : α}, i ≠ j →
      (l.set j b).get? i = l.get? i
  | [], _, _, _, _ => by simp
  | x :: xs, i, 0, b, hne => by
      cases i with
      | zero => exact absurd rfl hne
      | succ i => rfl
  | x :: xs, 0, j + 1, b, _hne => rfl
  | x :: xs, i + 1, j + 1, b, hne => by
      simp only [List.set, List.get?]
      exact get?_set_ne (l := xs) (fun h => hne (by rw [h]))

/-- A request on machine `j` leaves every other machine unchanged. -/
theorem requestMachine_get_other {st : SimState} {j : Nat} {c : Cont}
    {st' : SimState} (hok : requestMachine st j c = .ok st') (i : Nat)
    (hne : i ≠ j) : st'.machines.get? i = st.machines.get? i := by
  unfold requestMachine at hok
  split at hok
  next => exact Except.noConfusion hok
  next m _hget =>
    split at hok
    · injection hok with hok
      subst hok
      exact get?_set_ne hne
    · split at hok
      next =>
        injection hok with hok
        subst hok
        exact get?_set_ne hne
      next h t _hwt =>
        rw [schedule_ok hok]
        exact get?_set_ne hne

/-- Entering stage `j` leaves every machine other than `j` unchanged. -/
theorem jobStage_get_other {st : SimState} {a : Int} {j : Nat}
    {st' : SimState} (hok : jobStage st a j = .ok st') (i : Nat)
    (hne : i ≠ j) : st'.machines.get? i = st.machines.get? i := by
  unfold jobStage at hok
  split at hok
  · split at hok
    next => exact Except.noConfusion hok
    next sampler _hs => exact requestMachine_get_other hok i hne
  · injection hok with hok
    subst hok
    rfl

/-- Structure of the replication loop: starting at replication `rep` with
`k` to go, a successful run yields `k` records in order, record `j`
produced by a fresh seeded run with seed `(rep + j) * 100 + 7` (the same
record a standalone run from canonical ambient state 0 yields), and the
record sequence does not depend on the incoming global state. -/
theorem runRepsAux_facts (fuel : Nat) (lib : RandomLib) (params : Params)
    (T : Int) :
    ∀ (k rep g : Nat),
      ((runRepsAux fuel lib params T k rep g).map Prod.fst
        = (runRepsAux fuel lib params T k rep 0).map Prod.fst)
      ∧ (∀ l gF, runRepsAux fuel lib params T k rep g = .ok (l, gF) →
          l.length = k
          ∧ ∀ j r, l.get? j = some r → r.1 = rep + j
              ∧ (run_simulation_once fuel lib params T
                  (some ((rep + j) * 100 + 7)) 0).toOption.map Prod.fst
                = some r.2) := by
  intro k
  induction k with
  | zero =>
      intro rep g
      refine ⟨rfl, ?_⟩
      intro l gF h
      injection h with h
      injection h with h1 h2
      subst h1
      exact ⟨rfl, fun j r hr => by simp at hr⟩
  | succ k ih =>
      intro rep g
      refine ⟨rfl, ?_⟩
      intro l gF h
      unfold runRepsAux at h
      split at h
      next => exact Except.noConfusion h
      next res g₂ hrun =>
        split at h
        next => exact Except.noConfusion h
        next rows g₃ hrec =>
          injection h with h
          injection h with h1 h2
          subst h1
          obtain ⟨hl, he⟩ := (ih (rep + 1) g₂).2 rows g₃ hrec
          refine ⟨by simp [hl], ?_⟩
          intro j r hr
          cases j with
          | zero =>
              simp only [List.get?, Option.some.injEq] at hr
              subst hr
              refine ⟨by simp, ?_⟩
              have hc : run_simulation_once fuel lib params T
                  (some (rep * 100 + 7)) 0 = .ok (res, g₂) := by
                rw [runOnce_seeded_const fuel lib params T (rep * 100 + 7) 0
                  (lib.seed (rep * 100 + 7))]
                exact hrun
              simp [hc, Except.toOption]
          | succ j =>
              have hr' : rows.get? j = some r := hr
              obtain ⟨e1, e2⟩ := he j r hr'
              constructor
              · rw [e1]; omega
              · have hidx : rep + (j + 1) = rep + 1 + j := by omega
                rw [hidx]
                exact e2


/-- C1: determinism of `run_single`.  In the embedding every invocation is
a pure function of its arguments and of the ambient process-wide `random`
state `g`; with a non-None seed, `random.seed(seed)` overwrites that state,
so two invocations with identical scenario, horizon and seed — whose only
possible difference is the ambient state — return identical ReplicationResults
(identical records, and even identical final global state), for every
sampler library, fuel, scenario and horizon. -/
theorem c1_run_single_deterministic (fuel : Nat) (lib : RandomLib)
    (params : Params) (T : Int) (s : Nat) (g g' : Nat) :
    run_simulation_once fuel lib params T (some s) g
      = run_simulation_once fuel lib params T (some s) g' := rfl

/-- C7: for every scenario, horizon, seed and sampler library, a successful
`run_single` returns a record with `completed ≤ generated` (both counts are
naturals, hence nonnegative): every completed job was previously generated. -/
theorem c7_completed_le_generated {fuel : Nat} {lib : RandomLib}
    {params : Params} {T : Int} {seed : Option Nat} {g : Nat} {r : SimResult}
    {gF : Nat}
    (h : run_simulation_once fuel lib params T seed g = .ok (r, gF)) :
    r.completed ≤ r.generated := by
  unfold run_simulation_once at h
  split at h
  next => exact Except.noConfusion h
  next stF hr =>
    injection h with h
    injection h with h1 _h2
    have hinv := runSimFinal_inv hr
    rw [← h1]
    show stF.stats.completion_times.length ≤ stF.stats.generated
    have := hinv.count
    omega

/-- C7 witness: a concrete completed run with `completed = 0 ≤ 0 = generated`. -/
theorem c7_witness :
    run_simulation_once 30 quietLib quietParams 100000000 (some 0) 0
      = .ok (mkResult ⟨0, [], []⟩
          [quietMachine "M1 (CNC)", quietMachine "M2 (Finish)",
           quietMachine "Assembly"] 100000000, 4)
    ∧ (mkResult ⟨0, [], []⟩
          [quietMachine "M1 (CNC)", quietMachine "M2 (Finish)",
           quietMachine "Assembly"] 100000000).completed
        ≤ (mkResult ⟨0, [], []⟩
          [quietMachine "M1 (CNC)", quietMachine "M2 (Finish)",
           quietMachine "Assembly"] 100000000).generated := by
  have h : run_simulation_once 30 quietLib quietParams 100000000 (some 0) 0
      = .ok (mkResult ⟨0, [], []⟩
          [quietMachine "M1 (CNC)", quietMachine "M2 (Finish)",
           quietMachine "Assembly"] 100000000, 4) :=
    runOnce_of_stView (by decide)
  exact ⟨h, c7_completed_le_generated h⟩

/-- C8: KPI formation.  For every successful run (any scenario, horizon,
seed, sampler library), the returned record is `mkResult` of the final
statistics: when zero jobs completed the average-lead-time field is the
explicit no-data sentinel `none` (not the number zero and not an
exception); when at least one job completed it is the arithmetic mean of
the recorded lead times; and throughput_per_hour equals
`completed / (horizon_minutes / 60)`. -/
theorem c8_kpi_formation {fuel : Nat} {lib : RandomLib} {params : Params}
    {T : Int} {seed : Option Nat} {g : Nat} {S : Stats} {M : List Machine}
    {G : Nat}
    (h : stView (runSimFinal fuel lib params T seed g) = some (S, M, G)) :
    run_simulation_once fuel lib params T seed g = .ok (mkResult S M T, G)
    ∧ ((mkResult S M T).completed = 0 →
        (mkResult S M T).avg_lead_time_min = none)
    ∧ (S.completed_times ≠ [] →
        (mkResult S M T).avg_lead_time_min
          = some (toMin S.completed_times.sum
              / (S.completed_times.length : ℚ)))
    ∧ (mkResult S M T).throughput_per_hr
        = ((mkResult S M T).completed : ℚ) / (toMin T / 60) := by
  obtain ⟨_hle, hlens, _hlogs, _hlogT, _hnames⟩ := stView_facts h
  refine ⟨runOnce_of_stView h, ?_, ?_, rfl⟩
  · intro h0
    show (if S.completed_times.isEmpty then none else _) = none
    have : S.completed_times.length = 0 := by
      have : S.completion_times.length = 0 := h0
      omega
    rw [if_pos (by simpa [List.isEmpty_iff_length_eq_zero] using this)]
  · intro hne
    show (if S.completed_times.isEmpty then none else _) = _
    rw [if_neg (by simpa [List.isEmpty_iff] using hne)]

/-- C8 witness: in the quiet run no job completes and the record's average
lead time is the sentinel `none`, with throughput `0 / (100/60)`. -/
theorem c8_witness :
    run_simulation_once 30 quietLib quietParams 100000000 (some 1) 0
      = .ok (mkResult ⟨0, [], []⟩
          [quietMachine "M1 (CNC)", quietMachine "M2 (Finish)",
           quietMachine "Assembly"] 100000000, 4)
    ∧ (mkResult ⟨0, [], []⟩
        [quietMachine "M1 (CNC)", quietMachine "M2 (Finish)",
         quietMachine "Assembly"] 100000000).avg_lead_time_min = none := by
  have hv : stView (runSimFinal 30 quietLib quietParams 100000000 (some 1) 0)
      = some ((⟨0, [], []⟩ : Stats),
          [quietMachine "M1 (CNC)", quietMachine "M2 (Finish)",
           quietMachine "Assembly"], 4) := by decide
  have h := c8_kpi_formation hv
  exact ⟨h.1, h.2.1 (by decide)⟩

/-- C3 counterexample: with the `crossLib` draws, machine 0 fails at minute
1 and the drawn repair lasts 10 minutes, so the repair interval crosses the
5-minute horizon (the pending repair-completion event sits at minute 11
with down-start minute 1).  The claim requires downtime
`min(11,5) - 1 = 4` minutes; the run records downtime 0 for machine 0 —
the crossing interval contributed nothing, not its in-horizon portion. -/
theorem c3_counterexample :
    stView (runSimFinal 30 crossLib failParams 500000000 (some 0) 0)
      = some (⟨0, [], []⟩,
          [⟨"M1 (CNC)", 20000000000, 4000000000, 0, 0, 100000000,
            true, false, [], []⟩,
           ⟨"M2 (Finish)", 20000000000, 4000000000, 0, 0, 100000000000,
            false, false, [], []⟩,
           ⟨"Assembly", 20000000000, 4000000000, 0, 0, 100000000000,
            false, false, [], []⟩], 5)
    ∧ headEvtView (runSimFinal 30 crossLib failParams 500000000 (some 0) 0)
        = some (1100000000, 1, .repairEnd 0 100000000)
    ∧ (mkResult ⟨0, [], []⟩
        [⟨"M1 (CNC)", 20000000000, 4000000000, 0, 0, 100000000,
          true, false, [], []⟩,
         ⟨"M2 (Finish)", 20000000000, 4000000000, 0, 0, 100000000000,
          false, false, [], []⟩,
         ⟨"Assembly", 20000000000, 4000000000, 0, 0, 100000000000,
          false, false, [], []⟩] 500000000).machine_stats.map
        (fun ms => ms.downtime) = [0, 0, 0]
    ∧ min (1100000000 : Int) 500000000 - 100000000 = 400000000
    ∧ (0 : Int) ≠ 400000000 :=
  ⟨by decide, by decide, by decide, by decide, by decide⟩

/-- C3 amended: for every machine and every successful replication, the
accumulated downtime at the horizon equals the sum of the lengths of its
repair intervals whose completion executed within the run — each recorded
interval ends strictly before the horizon — and a repair interval that
starts before the horizon and ends after it contributes nothing (its
completion never executes), not its in-horizon portion.  The machine_stats
downtime fields of the returned record are exactly these accumulators. -/
theorem c3_downtime_is_completed_repairs {fuel : Nat} {lib : RandomLib}
    {params : Params} {T : Int} {seed : Option Nat} {g : Nat} {S : Stats}
    {M : List Machine} {G : Nat}
    (h : stView (runSimFinal fuel lib params T seed g) = some (S, M, G)) :
    (∀ m ∈ M, m.downtime = repairLogSum m.repair_log
      ∧ ∀ p ∈ m.repair_log, p.2 < T)
    ∧ run_simulation_once fuel lib params T seed g = .ok (mkResult S M T, G)
    ∧ (mkResult S M T).machine_stats.map (fun ms => ms.downtime)
        = M.map (fun m => m.downtime) := by
  obtain ⟨_hle, _hlens, hlogs, hlogT, _hnames⟩ := stView_facts h
  refine ⟨fun m hm => ⟨hlogs m hm, hlogT m hm⟩, runOnce_of_stView h, ?_⟩
  unfold mkResult
  rw [List.map_map]
  rfl

/-- C3 witness: a run in which machine 0 completes two one-minute repairs
(at minutes 1-2 and 3-4) before the 5-minute horizon: its downtime is
exactly 2 minutes, the summed length of the two recorded intervals. -/
theorem c3_witness :
    stView (runSimFinal 30 twoRepairLib failParams 500000000 (some 0) 0)
      = some (⟨0, [], []⟩,
          [⟨"M1 (CNC)", 20000000000, 4000000000, 0, 200000000, 500000000,
            false, false, [],
            [(100000000, 200000000), (300000000, 400000000)]⟩,
           ⟨"M2 (Finish)", 20000000000, 4000000000, 0, 0, 100000000000,
            false, false, [], []⟩,
           ⟨"Assembly", 20000000000, 4000000000, 0, 0, 100000000000,
            false, false, [], []⟩], 8)
    ∧ (200000000 : Int)
        = repairLogSum [(100000000, 200000000), (300000000, 400000000)]
    ∧ (∀ m ∈ [⟨"M1 (CNC)", 20000000000, 4000000000, 0, 200000000, 500000000,
            false, false, [],
            [(100000000, 200000000), (300000000, 400000000)]⟩,
           ⟨"M2 (Finish)", 20000000000, 4000000000, 0, 0, 100000000000,
            false, false, [], []⟩,
           (⟨"Assembly", 20000000000, 4000000000, 0, 0, 100000000000,
            false, false, [], []⟩ : Machine)],
          m.downtime = repairLogSum m.repair_log
          ∧ ∀ p ∈ m.repair_log, p.2 < 500000000) := by
  have hview : stView (runSimFinal 30 twoRepairLib failParams 500000000
      (some 0) 0)
      = some (⟨0, [], []⟩,
          [⟨"M1 (CNC)", 20000000000, 4000000000, 0, 200000000, 500000000,
            false, false, [],
            [(100000000, 200000000), (300000000, 400000000)]⟩,
           ⟨"M2 (Finish)", 20000000000, 4000000000, 0, 0, 100000000000,
            false, false, [], []⟩,
           ⟨"Assembly", 20000000000, 4000000000, 0, 0, 100000000000,
            false, false, [], []⟩], 8) := by decide
  exact ⟨hview, by decide, (c3_downtime_is_completed_repairs hview).1⟩


/-- C2 counterexample: in the probe run, after 9 events the earliest
pending event resumes the job inside its stage-0 loop with
`remaining = 10` units (`1e-7` minutes — positive, so the full original
processing amount of `0.01` minutes has not been worked off; the machine
is even failed at that instant, having just hit its failure at
`1.01 - 1e-7` minutes).  Processing that single event credits machine 0
with the full drawn duration `0.01` min of busy time, because the loop
exits at `remaining ≤ 1e-6`.  The full run then completes the job.  So
busy_time is credited although the full amount was never worked off. -/
theorem c2_counterexample :
    headEvtView (runSteps epsLib 9 epsStart)
      = some (100999990, 1, .jobWake 0 100000000 1000000 10)
    ∧ busyView (runSteps epsLib 9 epsStart) 0 = some 0
    ∧ busyView (runSteps epsLib 10 epsStart) 0 = some 1000000
    ∧ (10 : Int) ≠ 0
    ∧ stView (runSimFinal 30 epsLib epsParams 200000000 (some 0) 0)
        = some (⟨1, [2999990], [102999990]⟩,
            [⟨"M1 (CNC)", 20000000000, 20000000000, 1000000, 0, 100999990,
              true, false, [], []⟩,
             ⟨"M2 (Finish)", 20000000000, 20000000000, 1000000, 0,
              100000000000, false, false, [], []⟩,
             ⟨"Assembly", 20000000000, 20000000000, 1000000, 0,
              100000000000, false, false, [], []⟩], 9) :=
  ⟨by decide, by decide, by decide, by decide, by decide⟩

/-- C2 amended: per stage, busy_time is credited exactly at the loop exit,
which occurs when the remaining processing time has fallen to at most the
engine tolerance of `1e-6` minutes — that is, once the work done is within
`1e-6` of the full drawn amount, not necessarily all of it — and the
credit is the full drawn stage duration (the holder slot being freed with
it); while the machine's failed flag is true a loop check leaves the
remaining time unchanged and schedules only a `0.1`-minute retry, and no
mid-loop check (stalled or advancing) changes any machine accumulator, so
stalled time is excluded from busy_time. -/
theorem c2_busy_credit_rule {st : SimState} {i : Nat} {a pt rem : Int}
    {m : Machine} (hm : st.machines.get? i = some m) :
    (rem > 100 → m.failed = true →
      jobLoopIter st i a pt rem
        = schedule st 10000000 1 (.jobWake i a pt rem))
    ∧ (rem > 100 → ∀ st', jobLoopIter st i a pt rem = .ok st' →
        st'.machines = st.machines)
    ∧ (¬ rem > 100 → ∀ st', jobLoopIter st i a pt rem = .ok st' →
        st'.machines.get? i
          = some { m with busy_time := m.busy_time + pt, holder := false }) := by
  refine ⟨?_, ?_, ?_⟩
  · intro hrem hf
    unfold jobLoopIter
    rw [if_pos hrem, hm]
    simp [hf]
  · intro hrem st' hok
    unfold jobLoopIter at hok
    rw [if_pos hrem] at hok
    split at hok
    next => exact Except.noConfusion hok
    next m₂ _hget =>
      split at hok
      · exact (schedule_parts hok).2.1
      · split at hok
        · exact (schedule_parts hok).2.1
        · exact (schedule_parts hok).2.1
  · intro hrem st' hok
    unfold jobLoopIter at hok
    rw [if_neg hrem] at hok
    split at hok
    next => exact Except.noConfusion hok
    next m₂ hget =>
      rw [hm] at hget
      injection hget with hget
      subst hget
      split at hok
      next => exact Except.noConfusion hok
      next st₂ hs =>
        have h₂ := schedule_ok hs
        have hother : st'.machines.get? i = st₂.machines.get? i :=
          jobStage_get_other hok i (by omega)
        rw [hother, h₂]
        show (st.machines.set i _).get? i = _
        exact get?_set_self hm

/-- C2 witness: on the probe world, a stage-0 loop check with
`remaining = 50 ≤ 100` credits machine 0 with the full duration 777 and
frees the holder slot. -/
theorem c2_witness :
    (jobLoopIter epsStart 0 0 777 50).toOption.bind
        (fun st' => st'.machines.get? 0)
      = some { epsM0 with busy_time := epsM0.busy_time + 777,
                          holder := false } := by
  cases hEq : jobLoopIter epsStart 0 0 777 50 with
  | error e =>
      have hne : errView (jobLoopIter epsStart 0 0 777 50) = none := by decide
      rw [hEq] at hne
      simp [errView] at hne
  | ok st' =>
      have h3 := (c2_busy_credit_rule
        (by decide : epsStart.machines.get? 0 = some epsM0)).2.2
        (by decide) st' hEq
      simpa [Except.toOption] using h3

/-- C4 counterexample: with the `zeroRepairLib` draws, machine 0 fails at
minute 1 and the drawn repair duration is exactly 0; the run uses it
unclamped: the completed repair interval recorded is `(1 min, 1 min)`, of
length 0, and downtime stays 0.  Had the repair duration been clamped to a
small positive floor, as claimed, every completed repair interval would
have positive length. -/
theorem c4_counterexample :
    stView (runSimFinal 30 zeroRepairLib failParams 200000000 (some 0) 0)
      = some (⟨0, [], []⟩,
          [⟨"M1 (CNC)", 20000000000, 4000000000, 0, 0, 100100000000,
            false, false, [], [(100000000, 100000000)]⟩,
           ⟨"M2 (Finish)", 20000000000, 4000000000, 0, 0, 100000000000,
            false, false, [], []⟩,
           ⟨"Assembly", 20000000000, 4000000000, 0, 0, 100000000000,
            false, false, [], []⟩], 6)
    ∧ (100000000 : Int) - 100000000 = 0
    ∧ ¬ (0 : Int) > 0 :=
  ⟨by decide, by decide, by decide⟩

/-- C4 amended: the time-to-failure draw is clamped to the floor `0.0001`
minutes before use and the per-stage processing draw to the floor `0.01`
minutes, but the repair duration drawn with mean MTTR is used exactly as
drawn, with no floor: `fail_and_repair` sleeps the raw draw (a zero draw
yields a zero-length repair; a negative value would abort scheduling with
an error rather than be recovered locally). -/
theorem c4_clamping_rule (lib : RandomLib) :
    (∀ (m : Machine) (now : Int) (g : Nat) (m' : Machine) (g' : Nat),
      schedule_next_failure lib m now g = .ok (m', g') →
        m'.next_failure_time = now + max 10000 (lib.expoMean m.mttf g).1)
    ∧ (∀ (st : SimState) (a : Int) (i : Nat) (sampler : Sampler),
        st.procTimes.get? i = some sampler → i < st.machines.length →
        jobStage st a i
          = requestMachine { st with g := (sampler st.g).2 } i
              (.jobGranted i a (max 1000000 (sampler st.g).1)))
    ∧ (∀ (st : SimState) (i : Nat) (m : Machine),
        st.machines.get? i = some m → m.mttr ≠ 0 →
        processRepairStart lib st i
          = schedule
              (setMachine { st with g := (lib.expoMean m.mttr st.g).2 } i
                { m with failed := true })
              (lib.expoMean m.mttr st.g).1 1 (.repairEnd i st.now)) := by
  refine ⟨?_, ?_, ?_⟩
  · intro m now g m' g' h
    unfold schedule_next_failure at h
    split at h
    next => exact Except.noConfusion h
    next ttf g₂ hE =>
      unfold expoMeanCall at hE
      split at hE
      · exact Except.noConfusion hE
      · injection hE with hE
        injection h with h
        injection h with hA _hB
        rw [← hA]
        show now + max 10000 ttf = _
        rw [hE]
  · intro st a i sampler hs hlen
    unfold jobStage
    rw [if_pos hlen, hs]
  · intro st i m hm hmttr
    unfold processRepairStart
    rw [hm]
    simp only [expoMeanCall]
    rw [if_neg hmttr]

/-- C4 witness: the three clamping facts at concrete inputs: the quiet
library's time-to-failure draw of 1000 minutes gives
`next_failure_time = 5 + max(0.0001, 1000)`; stage 0 of the probe world
requests machine 0 with processing time `max(0.01, 0)`; and the repair of
machine 0 of the probe world sleeps the raw drawn duration. -/
theorem c4_witness :
    (schedule_next_failure quietLib epsM0 5 3).toOption.map
        (fun p => p.1.next_failure_time)
      = some (5 + max 10000 100000000000)
    ∧ jobStage epsStart 0 0
        = requestMachine { epsStart with g := (zeroSampler epsStart.g).2 } 0
            (.jobGranted 0 0 (max 1000000 (zeroSampler epsStart.g).1))
    ∧ processRepairStart epsLib epsStart 0
        = schedule
            (setMachine { epsStart with
                g := (epsLib.expoMean epsM0.mttr epsStart.g).2 } 0
              { epsM0 with failed := true })
            (epsLib.expoMean epsM0.mttr epsStart.g).1 1
            (.repairEnd 0 epsStart.now) := by
  refine ⟨?_, ?_, ?_⟩
  · cases hEq : schedule_next_failure quietLib epsM0 5 3 with
    | error e =>
        have hne : errView (schedule_next_failure quietLib epsM0 5 3)
            = none := by decide
        rw [hEq] at hne
        simp [errView] at hne
    | ok p =>
        have h1 := (c4_clamping_rule quietLib).1 epsM0 5 3 p.1 p.2
          (by rw [hEq])
        simpa [Except.toOption] using h1
  · have h2 := (c4_clamping_rule epsLib).2.1 epsStart 0 0 zeroSampler
      rfl (by decide)
    exact h2
  · have h3 := (c4_clamping_rule epsLib).2.2 epsStart 0 epsM0
      (by decide) (by decide)
    exact h3

/-- C5 counterexample: `longParams` has a four-entry `mttf` against
three-entry `mttr` and `process_times` — mismatched lengths — yet
`run_single` raises nothing at all (no ConfigurationError, no exception):
the run completes normally. -/
theorem c5_counterexample :
    errView (run_simulation_once 30 quietLib longParams 100000000 (some 0) 0)
      = none
    ∧ longParams.mttf.length = 4
    ∧ longParams.mttr.length = 3
    ∧ longParams.process_times.length = 3 :=
  ⟨by decide, by decide, by decide, by decide⟩

/-- C5 amended: `run_single` performs no configuration validation and no
ConfigurationError exists.  Sequence entries beyond the three hard-wired
stages are silently ignored (the mismatched four-entry scenario runs to
the identical result as its three-entry truncation); non-positive mttf and
mttr values are accepted and the run proceeds normally; sequences shorter
than the three stages fail only with the underlying IndexError when the
missing entry is first accessed during setup. -/
theorem c5_no_validation :
    run_simulation_once 30 quietLib longParams 100000000 (some 0) 0
      = run_simulation_once 30 quietLib quietParams 100000000 (some 0) 0
    ∧ errView (run_simulation_once 30 quietLib negParams 100000000 (some 0) 0)
        = none
    ∧ errView (run_simulation_once 30 quietLib shortParams 100000000 (some 0) 0)
        = some .indexError := by
  refine ⟨?_, by decide, by decide⟩
  have h1 : stView (runSimFinal 30 quietLib longParams 100000000 (some 0) 0)
      = some (⟨0, [], []⟩,
          [quietMachine "M1 (CNC)", quietMachine "M2 (Finish)",
           quietMachine "Assembly"], 4) := by decide
  have h2 : stView (runSimFinal 30 quietLib quietParams 100000000 (some 0) 0)
      = some (⟨0, [], []⟩,
          [quietMachine "M1 (CNC)", quietMachine "M2 (Finish)",
           quietMachine "Assembly"], 4) := by decide
  rw [runOnce_of_stView h1, runOnce_of_stView h2]

/-- C6 counterexample: on the four-entry scenario `longParams` the claim
demands four machines (one per entry); the run builds exactly three (the
hard-wired names) and the returned record carries three machine_stats. -/
theorem c6_counterexample :
    stView (runSimFinal 30 quietLib longParams 100000000 (some 0) 0)
      = some (⟨0, [], []⟩,
          [quietMachine "M1 (CNC)", quietMachine "M2 (Finish)",
           quietMachine "Assembly"], 4)
    ∧ (mkResult ⟨0, [], []⟩
        [quietMachine "M1 (CNC)", quietMachine "M2 (Finish)",
         quietMachine "Assembly"] 100000000).machine_stats.length = 3
    ∧ longParams.mttf.length = 4
    ∧ (3 : Nat) ≠ 4 :=
  ⟨by decide, by decide, by decide, by decide⟩

/-- C6 amended: every successful run builds exactly the three hard-wired
machines `M1 (CNC)`, `M2 (Finish)`, `Assembly` (using entries 0-2 of the
sequences), and the returned record has exactly three machine_stats; a job
entering stage `i` requests machine `i` (carrying the continuation
`jobGranted i`), and on finishing stage `i` it synchronously enters stage
`i + 1`, so every job's route visits the three machines in sequence
order. -/
theorem c6_three_machines_in_order :
    (∀ (fuel : Nat) (lib : RandomLib) (params : Params) (T : Int)
        (seed : Option Nat) (g : Nat) (S : Stats) (M : List Machine) (G : Nat),
      stView (runSimFinal fuel lib params T seed g) = some (S, M, G) →
        M.map (fun m => m.name) = ["M1 (CNC)", "M2 (Finish)", "Assembly"]
        ∧ (mkResult S M T).machine_stats.length = 3
        ∧ run_simulation_once fuel lib params T seed g
            = .ok (mkResult S M T, G))
    ∧ (∀ (st : SimState) (a : Int) (i : Nat) (sampler : Sampler),
        st.procTimes.get? i = some sampler → i < st.machines.length →
        jobStage st a i
          = requestMachine { st with g := (sampler st.g).2 } i
              (.jobGranted i a (max 1000000 (sampler st.g).1)))
    ∧ (∀ (st : SimState) (i : Nat) (a pt rem : Int) (m : Machine),
        st.machines.get? i = some m → ¬ rem > 100 →
        jobLoopIter st i a pt rem
          = match schedule (setMachine st i
                { m with busy_time := m.busy_time + pt, holder := false })
                0 1 (.releaseEvt i) with
            | .error e => .error e
            | .ok st₂ => jobStage st₂ a (i + 1)) := by
  refine ⟨?_, ?_, ?_⟩
  · intro fuel lib params T seed g S M G h
    obtain ⟨_hle, _hlens, _hlogs, _hlogT, hnames⟩ := stView_facts h
    refine ⟨hnames, ?_, runOnce_of_stView h⟩
    show (M.map _).length = 3
    rw [List.length_map]
    have := congrArg List.length hnames
    rw [List.length_map] at this
    exact this
  · intro st a i sampler hs hlen
    unfold jobStage
    rw [if_pos hlen, hs]
  · intro st i a pt rem m hm hrem
    unfold jobLoopIter
    rw [if_neg hrem, hm]

/-- C6 witness: the quiet run yields the three hard-wired machines and a
three-entry machine_stats; stage 1 of the probe world requests machine 1;
and a finished stage-1 loop enters stage 2. -/
theorem c6_witness :
    ([quietMachine "M1 (CNC)", quietMachine "M2 (Finish)",
      quietMachine "Assembly"].map (fun m => m.name)
        = ["M1 (CNC)", "M2 (Finish)", "Assembly"])
    ∧ (mkResult ⟨0, [], []⟩
        [quietMachine "M1 (CNC)", quietMachine "M2 (Finish)",
         quietMachine "Assembly"] 100000000).machine_stats.length = 3
    ∧ jobStage epsStart 0 1
        = requestMachine { epsStart with g := (zeroSampler epsStart.g).2 } 1
            (.jobGranted 1 0 (max 1000000 (zeroSampler epsStart.g).1))
    ∧ jobLoopIter epsStart 1 0 777 50
        = match schedule (setMachine epsStart 1
              { (⟨"M2 (Finish)", 20000000000, 20000000000, 0, 0,
                  100000000000, false, false, [], []⟩ : Machine) with
                busy_time := 0 + 777, holder := false })
              0 1 (.releaseEvt 1) with
          | .error e => .error e
          | .ok st₂ => jobStage st₂ 0 2 := by
  have hall := c6_three_machines_in_order
  refine ⟨?_, ?_, ?_, ?_⟩
  · have h := (hall.1 30 quietLib quietParams 100000000 (some 0) 0
      ⟨0, [], []⟩
      [quietMachine "M1 (CNC)", quietMachine "M2 (Finish)",
       quietMachine "Assembly"] 4 (by decide))
    exact h.1
  · have h := (hall.1 30 quietLib quietParams 100000000 (some 0) 0
      ⟨0, [], []⟩
      [quietMachine "M1 (CNC)", quietMachine "M2 (Finish)",
       quietMachine "Assembly"] 4 (by decide))
    exact h.2.1
  · exact hall.2.1 epsStart 0 1 zeroSampler rfl (by decide)
  · exact hall.2.2 epsStart 1 0 777 50
      ⟨"M2 (Finish)", 20000000000, 20000000000, 0, 0, 100000000000,
        false, false, [], []⟩ (by decide) (by decide)


/-- C9: for every scenario params, horizon, sampler library and
replication count R, the replication sequence produced for the scenario
(`run_and_save` inner loop) is an ordered list of exactly R records;
the record at position j is replication `r = j + 1`, and it is exactly the
record of `run_simulation_once(params, horizon, seed = r * 100 + 7)` on
fresh per-replication state (the same record a standalone seeded run from
the canonical ambient global state 0 yields — nothing carries over between
replications); and the whole sequence is exactly reproducible: it does not
depend on the ambient global random state. -/
theorem c9_replication_sequence (fuel : Nat) (lib : RandomLib)
    (params : Params) (T : Int) (R : Nat) :
    (∀ g g', (runScenario fuel lib params T R g).map Prod.fst
        = (runScenario fuel lib params T R g').map Prod.fst)
    ∧ (∀ g l gF, runScenario fuel lib params T R g = .ok (l, gF) →
        l.length = R
        ∧ ∀ j r, l.get? j = some r → r.1 = j + 1
            ∧ (run_simulation_once fuel lib params T
                (some ((j + 1) * 100 + 7)) 0).toOption.map Prod.fst
              = some r.2) := by
  constructor
  · intro g g'
    have h1 := (runRepsAux_facts fuel lib params T R 1 g).1
    have h2 := (runRepsAux_facts fuel lib params T R 1 g').1
    exact h1.trans h2.symm
  · intro g l gF h
    obtain ⟨hl, he⟩ := (runRepsAux_facts fuel lib params T R 1 g).2 l gF h
    refine ⟨hl, ?_⟩
    intro j r hr
    obtain ⟨e1, e2⟩ := he j r hr
    constructor
    · rw [e1]; omega
    · have hidx : (j + 1) * 100 + 7 = (1 + j) * 100 + 7 := by
        have : j + 1 = 1 + j := by omega
        rw [this]
      rw [hidx]
      exact e2

/-- C9 witness: one replication of the quiet scenario: the sequence is the
single record of the seed-107 run (107 = 1 * 100 + 7), reproducible from
canonical ambient state 0. -/
theorem c9_witness :
    runScenario 30 quietLib quietParams 100000000 1 0
      = .ok ([(1, mkResult ⟨0, [], []⟩
          [quietMachine "M1 (CNC)", quietMachine "M2 (Finish)",
           quietMachine "Assembly"] 100000000)], 4)
    ∧ ([(1, mkResult ⟨0, [], []⟩
          [quietMachine "M1 (CNC)", quietMachine "M2 (Finish)",
           quietMachine "Assembly"] 100000000)].length = 1)
    ∧ ((1, mkResult ⟨0, [], []⟩
          [quietMachine "M1 (CNC)", quietMachine "M2 (Finish)",
           quietMachine "Assembly"] 100000000) : Nat × SimResult).1 = 0 + 1
    ∧ (run_simulation_once 30 quietLib quietParams 100000000
          (some ((0 + 1) * 100 + 7)) 0).toOption.map Prod.fst
        = some ((1, mkResult ⟨0, [], []⟩
          [quietMachine "M1 (CNC)", quietMachine "M2 (Finish)",
           quietMachine "Assembly"] 100000000) : Nat × SimResult).2 := by
  have hrun : run_simulation_once 30 quietLib quietParams 100000000
      (some (1 * 100 + 7)) (quietLib.seed (1 * 100 + 7))
      = .ok (mkResult ⟨0, [], []⟩
          [quietMachine "M1 (CNC)", quietMachine "M2 (Finish)",
           quietMachine "Assembly"] 100000000, 4) :=
    runOnce_of_stView (by decide)
  have hsc : runScenario 30 quietLib quietParams 100000000 1 0
      = .ok ([(1, mkResult ⟨0, [], []⟩
          [quietMachine "M1 (CNC)", quietMachine "M2 (Finish)",
           quietMachine "Assembly"] 100000000)], 4) := by
    unfold runScenario runRepsAux
    rw [hrun]
    rfl
  obtain ⟨_hl, he⟩ := (c9_replication_sequence 30 quietLib quietParams
    100000000 1).2 0 _ _ hsc
  obtain ⟨e1, e2⟩ := he 0 _ rfl
  exact ⟨hsc, rfl, e1, e2⟩

/-- C10 counterexample: a seeded run invoked with the process-wide
`random` state at 0 returns with it at 55 (`shiftSeedLib` maps seed 5 to
state 51 and the run's four draws advance it to 55): `run_single` mutates
the process-wide random-number state — it reseeds and then advances it —
rather than drawing from an explicit per-run RNG handle. -/
theorem c10_counterexample :
    gView (run_simulation_once 30 shiftSeedLib quietParams 100000000
        (some 5) 0) = some 55
    ∧ (55 : Nat) ≠ 0 := ⟨by decide, by decide⟩

/-- C10 amended: all randomness flows through the process-wide `random`
module state, which a seeded run overwrites and leaves advanced; that
mutation is deterministic given the arguments — the final global state
does not depend on the ambient one.  The replication runner additionally
writes files: on success `run_and_save` emits exactly the rows of the
three scenario CSV files, in table order.  Beyond the global RNG state and
those files, nothing outside the run's own scheduler/machines/collector is
written. -/
theorem c10_global_rng_and_files (fuel : Nat) (lib : RandomLib)
    (params : Params) (T : Int) (s : Nat) (g g' : Nat) (nRep gW : Nat) :
    gView (run_simulation_once fuel lib params T (some s) g)
      = gView (run_simulation_once fuel lib params T (some s) g')
    ∧ (run_and_save fuel lib nRep T gW).map (fun out => out.1.map Prod.fst)
        = (run_and_save fuel lib nRep T gW).map
            (fun _ => ["level1_baseline", "level3_connected",
                       "level4_predictive"]) := by
  refine ⟨rfl, ?_⟩
  unfold run_and_save
  split
  · rfl
  · split
    · rfl
    · split
      · rfl
      · rfl

end Sim
